import Mathlib

/-!
Verification of the Git workflow MCP server (`src/index.ts`).

The four workflow operations (`commitAndPush`, `createPullRequest`,
`mergePullRequest`, `completeGitWorkflow`) are embedded as pure Lean
functions.  External collaborators (simple-git, the GitHub CLI executed
through PowerShell, and the filesystem) are modelled by an explicit
environment `Env` that fixes the outcome of every external call, and each
operation additionally returns the list of external calls it performed
(`List Call`), in order.  A thrown JavaScript exception is modelled by the
`Except.error` branch carrying the exception's message text; JavaScript
strings are modelled as `List Char`.
-/

namespace GitWorkflow

/-- The character list of a string literal (JS strings are char sequences). -/
def str (s : String) : List Char := s.data

/-- The double-quote character. -/
def dq : Char := Char.ofNat 34

/-- The single-quote character. -/
def squote : Char := Char.ofNat 39

/-- The backtick character. -/
def btick : Char := Char.ofNat 96

/-- JavaScript whitespace as used by the regex class and by trim
(only the forms that can occur in the commands at hand). -/
def isJsWs (c : Char) : Bool :=
  c = ' ' || c = '\t' || c = '\n' || c = '\r' || c = '\x0b' || c = '\x0c'

/-- JavaScript `String.prototype.trim`: strip whitespace at both ends. -/
def jsTrim (s : List Char) : List Char :=
  ((s.dropWhile isJsWs).reverse.dropWhile isJsWs).reverse

/-- JavaScript `String.prototype.replace` with a global single-character
pattern `/c/g` and replacement text `r`. -/
def replaceAllChar (c : Char) (r : List Char) : List Char → List Char
  | [] => []
  | x :: xs => (if x = c then r else [x]) ++ replaceAllChar c r xs

/-- `escapePowerShellString` from the source: escape single quotes, then
backticks, then dollar signs, then double quotes (in that order, each pass
running on the output of the previous one). -/
def escapePowerShellString (s : List Char) : List Char :=
  replaceAllChar dq [dq, dq]
    (replaceAllChar '$' [btick, '$']
      (replaceAllChar btick [btick, btick]
        (replaceAllChar squote [squote, squote] s)))

/-- ECMAScript `GetSubstitution` for a string replacement in
`String.prototype.replace`: scan the replacement text for dollar patterns
and expand them.  `$$` is a literal dollar, `$&` inserts the matched
substring, a dollar followed by a backtick inserts the text preceding the
match, a dollar followed by a single quote inserts the text following the
match, and `$n` / `$nn` (n ≥ 1, preferring the two-digit reading when it
names an existing capture) inserts the n-th capture.  A dollar followed by
anything else (or by a capture index that does not exist) stays literal and
scanning resumes at the next character. -/
def getSubMain (matched before after : List Char) (caps : List (List Char)) :
    Nat → List Char → List Char
  | 0, _ => []
  | _ + 1, [] => []
  | fuel + 1, c :: rest =>
    if c = '$' then
      match rest with
      | [] => ['$']
      | c1 :: r1 =>
        if c1 = '$' then '$' :: getSubMain matched before after caps fuel r1
        else if c1 = '&' then matched ++ getSubMain matched before after caps fuel r1
        else if c1 = btick then before ++ getSubMain matched before after caps fuel r1
        else if c1 = squote then after ++ getSubMain matched before after caps fuel r1
        else if c1.isDigit then
          match r1 with
          | c2 :: r2 =>
            if c2.isDigit ∧ 1 ≤ (c1.toNat - 48) * 10 + (c2.toNat - 48) ∧
                (c1.toNat - 48) * 10 + (c2.toNat - 48) ≤ caps.length then
              caps.getD ((c1.toNat - 48) * 10 + (c2.toNat - 48) - 1) [] ++
                getSubMain matched before after caps fuel r2
            else if 1 ≤ c1.toNat - 48 ∧ c1.toNat - 48 ≤ caps.length then
              caps.getD (c1.toNat - 48 - 1) [] ++
                getSubMain matched before after caps fuel (c2 :: r2)
            else '$' :: c1 :: getSubMain matched before after caps fuel (c2 :: r2)
          | [] =>
            if 1 ≤ c1.toNat - 48 ∧ c1.toNat - 48 ≤ caps.length then
              caps.getD (c1.toNat - 48 - 1) []
            else ['$', c1]
        else '$' :: c1 :: getSubMain matched before after caps fuel r1
    else c :: getSubMain matched before after caps fuel rest

/-- The substitution scanner applied with enough fuel: every step consumes at
least one character, so one more unit of fuel than the length of the
replacement text always suffices for the scan to run to the end. -/
def getSubstitution (matched before after : List Char) (caps : List (List Char))
    (repl : List Char) : List Char :=
  getSubMain matched before after caps (repl.length + 1) repl

/-- First-match semantics of a JS `String.prototype.replace` with a
non-global regex and a string replacement: scan left to right, and at the
first position where the matcher succeeds (returning the length of the
matched region and the capture list) splice in the replacement — after
ECMAScript `$`-substitution against the match — and stop.  `pre` holds the
already-scanned text, reversed, so the substitution can see the text
preceding the match. -/
def replaceFirstAux (matchAt : List Char → Option (Nat × List (List Char)))
    (repl : List Char) (pre : List Char) : List Char → List Char
  | [] => []
  | c :: s =>
    match matchAt (c :: s) with
    | some (n, caps) =>
      getSubstitution ((c :: s).take n) pre.reverse ((c :: s).drop n) caps repl ++
        (c :: s).drop n
    | none => c :: replaceFirstAux matchAt repl (c :: pre) s

/-- JS `String.prototype.replace` with a non-global regex and a string
replacement, starting with nothing scanned yet. -/
def replaceFirst (matchAt : List Char → Option (Nat × List (List Char)))
    (repl : List Char) (s : List Char) : List Char :=
  replaceFirstAux matchAt repl [] s

/-- Matcher for the regex `--body\s+"[^"]*"` anchored at the head of the
list: the literal `--body`, one or more whitespace characters (greedy),
a double quote, a (greedy) run of non-quote characters, and a closing
double quote.  Returns the length of the matched region. -/
def matchBodyQuotedAt (s : List Char) : Option (Nat × List (List Char)) :=
  if (str "--body").isPrefixOf s then
    let rest := s.drop 6
    let ws := (rest.takeWhile isJsWs).length
    if ws = 0 then none
    else
      match rest.drop ws with
      | c :: r2 =>
        if c = dq then
          let inner := (r2.takeWhile (fun x => x ≠ dq)).length
          match r2.drop inner with
          | c2 :: _ => if c2 = dq then some (6 + ws + 1 + inner + 1, []) else none
          | [] => none
        else none
      | [] => none
  else none

/-- Matcher for the regex `--body\s+[^\s]+` anchored at the head of the
list: the literal `--body`, one or more whitespace characters, then one or
more non-whitespace characters (greedy). -/
def matchBodyUnquotedAt (s : List Char) : Option (Nat × List (List Char)) :=
  if (str "--body").isPrefixOf s then
    let rest := s.drop 6
    let ws := (rest.takeWhile isJsWs).length
    if ws = 0 then none
    else
      let tok := ((rest.drop ws).takeWhile (fun c => !(isJsWs c))).length
      if tok = 0 then none else some (6 + ws + tok, [])
  else none

/-- Matcher for the regex `--title\s+"([^"]*)"` anchored at the head of the
list. -/
def matchTitleAt (s : List Char) : Option (Nat × List (List Char)) :=
  if (str "--title").isPrefixOf s then
    let rest := s.drop 7
    let ws := (rest.takeWhile isJsWs).length
    if ws = 0 then none
    else
      match rest.drop ws with
      | c :: r2 =>
        if c = dq then
          let cap := r2.takeWhile (fun x => x ≠ dq)
          match r2.drop cap.length with
          | c2 :: _ => if c2 = dq then some (7 + ws + 1 + cap.length + 1, [cap]) else none
          | [] => none
        else none
      | [] => none
  else none

/-- The temporary PR-body file path ``join(tmpdir(), `gh-pr-body-${Date.now()}.txt`)``;
`tmpdir()` is modelled as `/tmp` and `Date.now()` by `Env.nowMs` below. -/
def tempBodyPath (nowMs : Nat) : List Char :=
  str "/tmp/gh-pr-body-" ++ str (toString nowMs) ++ str ".txt"

/-- The replacement text `--body-file "<path>"`. -/
def bodyFileRepl (p : List Char) : List Char :=
  str "--body-file " ++ [dq] ++ p ++ [dq]

/-- Wrap a command in the PowerShell invocation that clears the
`GH_TOKEN` / `GITHUB_TOKEN` environment overrides. -/
def powershellWrap (finalCommand : List Char) : List Char :=
  str "powershell -Command " ++ [dq] ++
    str "Remove-Item Env:GH_TOKEN -ErrorAction SilentlyContinue; Remove-Item Env:GITHUB_TOKEN -ErrorAction SilentlyContinue; " ++
    finalCommand ++ [dq]

/-- Result of a successful `execAsync`. -/
structure ExecResult where
  stdout : List Char
  stderr : List Char
deriving DecidableEq

/-- Error object thrown by a failed `execAsync`. -/
structure ExecErr where
  message : List Char
  stdout : List Char
  stderr : List Char
deriving DecidableEq

/-- The rethrown message built in the catch blocks of
`executeGitHubCommand` / `executeWithClearedTokens`:
``Command failed: ${error.message}\nStdout: ${error.stdout}\nStderr: ${error.stderr}``. -/
def commandFailedMessage (e : ExecErr) : List Char :=
  str "Command failed: " ++ e.message ++ str "\nStdout: " ++ e.stdout ++
    str "\nStderr: " ++ e.stderr

/-- Result object of simple-git `commit`. -/
structure CommitSummary where
  commit : List Char
  changes : Nat
  insertions : Nat
  deletions : Nat
deriving DecidableEq

/-- The `mergeMethod` enumeration `'merge' | 'squash' | 'rebase'`. -/
inductive MergeMethod where
  | merge
  | squash
  | rebase
deriving DecidableEq

/-- The string value of a merge method. -/
def MergeMethod.toStr : MergeMethod → List Char
  | .merge => str "merge"
  | .squash => str "squash"
  | .rebase => str "rebase"

/-- The structured payloads that appear in the `details` field of a
`WorkflowResult` (the `any`-typed objects built by the source). -/
inductive Details where
  | commitDry (files : List (List Char)) (commitMessage : List Char)
      (branch : Option (List Char)) (workingDir : Option (List Char))
  | commitDone (commit : List Char) (branch : List Char)
      (files : Nat) (insertions : Nat) (deletions : Nat)
  | prDry (title : List Char) (body : List Char) (baseBranch : List Char)
      (headBranch : Option (List Char))
  | prDone (url : List Char) (title : List Char) (baseBranch : List Char)
      (headBranch : List Char)
  | mergeDry (prNumber : List Char) (mergeMethod : List Char) (deleteBranch : Bool)
  | mergeDone (prNumber : List Char) (mergeMethod : List Char) (output : List Char)
  | workflowDry (files : List (List Char)) (commitMessage : List Char)
      (prTitle : List Char) (prBody : List Char) (branch : Option (List Char))
      (baseBranch : List Char) (autoMerge : Bool)
  | workflowDone (commit : Option Details) (pullRequest : Option Details)
      (merge : Option Details)

/-- The `WorkflowResult` interface. -/
structure WorkflowResult where
  success : Bool
  message : List Char
  details : Option Details := none
  error : Option (List Char) := none

/-- One external call performed by an operation, in the order issued. -/
inductive Call where
  | checkIsRepo
  | status
  | checkoutBranch (branch : List Char)
  | checkout (branch : List Char)
  | addFiles (files : List (List Char))
  | addAll
  | commit (message : List Char)
  | revparse
  | push (remote : List Char) (branch : List Char)
  | writeFile (path : List Char) (content : List Char)
  | execCommand (command : List Char)
  | unlinkFile (path : List Char)

/-- Whether a call goes to the version-control (simple-git) collaborator,
as opposed to the hosting-CLI / filesystem collaborators. -/
def Call.isGit : Call → Bool
  | .checkIsRepo | .status | .checkoutBranch _ | .checkout _ | .addFiles _
  | .addAll | .commit _ | .revparse | .push _ _ => true
  | .writeFile _ _ | .execCommand _ | .unlinkFile _ => false

/-- The environment: the outcome of every external call an operation may
issue.  An `Except.error` models the call throwing, with the thrown
error's message text. -/
structure Env where
  isRepo : Bool
  statusRes : Except (List Char) Unit
  checkoutBranchRes : Except (List Char) Unit
  checkoutRes : Except (List Char) Unit
  addRes : Except (List Char) Unit
  commitRes : Except (List Char) CommitSummary
  revparseRes : Except (List Char) (List Char)
  pushRes : Except (List Char) Unit
  execRes : List Char → Except ExecErr ExecResult
  nowMs : Nat

/-- `executeWithClearedTokens`: wrap the command for PowerShell with the
token-clearing preamble and run it; a failure is rethrown with the
`Command failed:` prefix. -/
def executeWithClearedTokens (env : Env) (command : List Char)
    (_cwd : Option (List Char)) : Except (List Char) ExecResult × List Call :=
  let ps := powershellWrap command
  ((match env.execRes ps with
    | .ok r => .ok r
    | .error e => .error (commandFailedMessage e)),
   [Call.execCommand ps])

/-- `executeGitHubCommand`: if a (truthy, i.e. non-empty) body is given,
write it to a temporary file and rewrite the `--body` argument of the
command to `--body-file`; if a (truthy) title is given, rewrite the
`--title "…"` argument to a single-quoted, PowerShell-escaped one; then run
the command through PowerShell with tokens cleared.  The temporary file is
removed in the `finally` block on every path (removal errors are ignored by
the source; the filesystem unlink primitive is modelled as succeeding). -/
def executeGitHubCommand (env : Env) (baseCommand : List Char)
    (title body _cwd : Option (List Char)) :
    Except (List Char) ExecResult × List Call :=
  let wb : Option (List Char × List Char) :=
    match body with
    | some b => if b.isEmpty then none else some (tempBodyPath env.nowMs, b)
    | none => none
  let command1 : List Char :=
    match wb with
    | some (p, _) =>
      replaceFirst matchBodyUnquotedAt (bodyFileRepl p)
        (replaceFirst matchBodyQuotedAt (bodyFileRepl p) baseCommand)
    | none => baseCommand
  let finalCommand : List Char :=
    match title with
    | some t =>
      if t.isEmpty then command1
      else
        replaceFirst matchTitleAt
          (str "--title " ++ [squote] ++ escapePowerShellString t ++ [squote])
          command1
    | none => command1
  let writes : List Call :=
    match wb with
    | some (p, b) => [Call.writeFile p b]
    | none => []
  let cleanup : List Call :=
    match wb with
    | some (p, _) => [Call.unlinkFile p]
    | none => []
  let ps := powershellWrap finalCommand
  ((match env.execRes ps with
    | .ok r => .ok r
    | .error e => .error (commandFailedMessage e)),
   writes ++ [Call.execCommand ps] ++ cleanup)

/-- The failure result shape used throughout `commitAndPush`. -/
def commitFailure (e : List Char) : WorkflowResult :=
  { success := false, message := str "Failed to commit and push", error := some e }

/-- `commitAndPush`: dry run echoes the parameters; otherwise check the
repository, query status, optionally create-or-switch to the branch, stage
the given files (or everything), commit, resolve the current branch and
push it to `origin`.  Any throwing step is caught and surfaced as a
failure result carrying the thrown message. -/
def commitAndPush (env : Env) (files : List (List Char)) (commitMessage : List Char)
    (branch : Option (List Char)) (workingDir : Option (List Char))
    (dryRun : Bool) : WorkflowResult × List Call :=
  if dryRun then
    ({ success := true, message := str "Dry run: Would commit and push changes",
       details := some (.commitDry files commitMessage branch workingDir) }, [])
  else
    if !env.isRepo then
      (commitFailure (str "Not a Git repository"), [Call.checkIsRepo])
    else
      match env.statusRes with
      | .error e => (commitFailure e, [Call.checkIsRepo, Call.status])
      | .ok _ =>
        let branchStep : Except (List Char) Unit × List Call :=
          match branch with
          | none => (.ok (), [])
          | some b =>
            match env.checkoutBranchRes with
            | .ok _ => (.ok (), [Call.checkoutBranch b])
            | .error _ =>
              match env.checkoutRes with
              | .ok _ => (.ok (), [Call.checkoutBranch b, Call.checkout b])
              | .error switchError =>
                (.error (str "Failed to create or switch to branch " ++ b ++
                    str ": " ++ switchError),
                 [Call.checkoutBranch b, Call.checkout b])
        match branchStep with
        | (.error e, calls) =>
          (commitFailure e, [Call.checkIsRepo, Call.status] ++ calls)
        | (.ok _, calls) =>
          let pre := [Call.checkIsRepo, Call.status] ++ calls
          let addCall := if files.isEmpty then Call.addAll else Call.addFiles files
          match env.addRes with
          | .error e => (commitFailure e, pre ++ [addCall])
          | .ok _ =>
            match env.commitRes with
            | .error e => (commitFailure e, pre ++ [addCall, Call.commit commitMessage])
            | .ok cs =>
              match env.revparseRes with
              | .error e =>
                (commitFailure e,
                 pre ++ [addCall, Call.commit commitMessage, Call.revparse])
              | .ok currentBranch =>
                match env.pushRes with
                | .error e =>
                  (commitFailure e,
                   pre ++ [addCall, Call.commit commitMessage, Call.revparse,
                     Call.push (str "origin") currentBranch])
                | .ok _ =>
                  ({ success := true,
                     message := str "Successfully committed and pushed changes",
                     details := some (.commitDone cs.commit currentBranch
                       cs.changes cs.insertions cs.deletions) },
                   pre ++ [addCall, Call.commit commitMessage, Call.revparse,
                     Call.push (str "origin") currentBranch])

/-- The body of `createPullRequest` after the head branch has been
resolved: build the `gh pr create` command and run it via
`executeGitHubCommand`; the PR URL is the trimmed stdout. -/
def createPullRequestWithHead (env : Env) (title : List Char) (body : List Char)
    (baseBranch : List Char) (head : List Char) (workingDir : Option (List Char)) :
    WorkflowResult × List Call :=
  let command := str "gh pr create --title " ++ [dq] ++ title ++ [dq] ++
    str " --body " ++ [dq] ++ body ++ [dq] ++
    str " --base " ++ baseBranch ++ str " --head " ++ head
  let run := executeGitHubCommand env command (some title) (some body) workingDir
  ((match run.1 with
    | .ok r =>
      { success := true, message := str "Successfully created pull request",
        details := some (.prDone (jsTrim r.stdout) title baseBranch head) }
    | .error e =>
      { success := false, message := str "Failed to create pull request",
        error := some (str "Failed to create pull request: " ++ e) }),
   run.2)

/-- `createPullRequest`: dry run echoes the parameters; otherwise resolve
the head branch (current branch when absent or empty, i.e. falsy) and
continue with `createPullRequestWithHead`.  Failures — of the resolution
step as well — are caught and prefixed with
`Failed to create pull request: `. -/
def createPullRequest (env : Env) (title : List Char) (body : List Char)
    (baseBranch : List Char) (headBranch : Option (List Char))
    (workingDir : Option (List Char)) (dryRun : Bool) :
    WorkflowResult × List Call :=
  if dryRun then
    ({ success := true, message := str "Dry run: Would create pull request",
       details := some (.prDry title body baseBranch headBranch) }, [])
  else
    let headStep : Except (List Char) (List Char) × List Call :=
      match headBranch with
      | some h => if h.isEmpty then (env.revparseRes, [Call.revparse]) else (.ok h, [])
      | none => (env.revparseRes, [Call.revparse])
    match headStep with
    | (.error e, calls) =>
      ({ success := false, message := str "Failed to create pull request",
         error := some (str "Failed to create pull request: " ++ e) }, calls)
    | (.ok head, calls) =>
      let run := createPullRequestWithHead env title body baseBranch head workingDir
      (run.1, calls ++ run.2)

/-- The merge command string
``` `gh pr merge ${prNumber} ${mergeFlag} ${deleteFlag}`.trim() ```
with `mergeFlag` mapped from the merge method and `deleteFlag` empty when
`deleteBranch` is false. -/
def mergeCommand (prNumber : List Char) (m : MergeMethod) (deleteBranch : Bool) :
    List Char :=
  let mergeFlag : List Char :=
    match m with
    | .squash => str "--squash"
    | .rebase => str "--rebase"
    | .merge => str "--merge"
  let deleteFlag : List Char := if deleteBranch then str "--delete-branch" else []
  jsTrim (str "gh pr merge " ++ prNumber ++ str " " ++ mergeFlag ++ str " " ++ deleteFlag)

/-- `mergePullRequest`: dry run echoes the parameters; otherwise run the
merge command with cleared tokens.  Failures are caught and prefixed with
`Failed to merge pull request: `. -/
def mergePullRequest (env : Env) (prNumber : List Char) (mergeMethod : MergeMethod)
    (deleteBranch : Bool) (workingDir : Option (List Char)) (dryRun : Bool) :
    WorkflowResult × List Call :=
  if dryRun then
    ({ success := true, message := str "Dry run: Would merge pull request",
       details := some (.mergeDry prNumber mergeMethod.toStr deleteBranch) }, [])
  else
    let run := executeWithClearedTokens env (mergeCommand prNumber mergeMethod deleteBranch)
      workingDir
    ((match run.1 with
      | .ok r =>
        { success := true, message := str "Successfully merged pull request",
          details := some (.mergeDone prNumber mergeMethod.toStr r.stdout) }
      | .error e =>
        { success := false, message := str "Failed to merge pull request",
          error := some (str "Failed to merge pull request: " ++ e) }),
     run.2)

/-- The regex match `url.match(/\/pull\/(\d+)$/)`: the captured group is
the non-empty maximal digit suffix of the URL, provided it is immediately
preceded by the literal `/pull/`. -/
def extractPrNumber (url : List Char) : Option (List Char) :=
  let digitsRev := url.reverse.takeWhile Char.isDigit
  let rest := url.reverse.dropWhile Char.isDigit
  if digitsRev.isEmpty then none
  else if (str "/pull/").reverse.isPrefixOf rest then some digitsRev.reverse
  else none

/-- The truthy PR URL of a result, as read by `prResult.details?.url`:
present only when the details carry a PR payload with a non-empty URL. -/
def prUrlOf (r : WorkflowResult) : Option (List Char) :=
  match r.details with
  | some (.prDone url _ _ _) => if url.isEmpty then none else some url
  | _ => none

/-- `completeGitWorkflow`: dry run echoes the parameters; otherwise run
`commitAndPush` (returning its result unchanged on failure), then
`createPullRequest` (likewise), then — when `autoMerge` is set and the PR
result carries a truthy URL matching `/\/pull\/(\d+)$/` — run
`mergePullRequest` with the extracted number, method `merge` and
delete-branch `true`.  The final result is always a success aggregating the
step details (the merge key holds the merge step's details, absent when the
merge was skipped or failed). -/
def completeGitWorkflow (env : Env) (files : List (List Char))
    (commitMessage : List Char) (prTitle : List Char) (prBody : List Char)
    (branch : Option (List Char)) (baseBranch : List Char) (autoMerge : Bool)
    (workingDir : Option (List Char)) (dryRun : Bool) :
    WorkflowResult × List Call :=
  if dryRun then
    ({ success := true, message := str "Dry run: Would execute complete Git workflow",
       details := some (.workflowDry files commitMessage prTitle prBody branch
         baseBranch autoMerge) }, [])
  else
    let cp := commitAndPush env files commitMessage branch workingDir false
    if cp.1.success then
      let pr := createPullRequest env prTitle prBody baseBranch branch workingDir false
      if pr.1.success then
        let mergeStep : Option (WorkflowResult × List Call) :=
          if autoMerge then
            match prUrlOf pr.1 with
            | some url =>
              match extractPrNumber url with
              | some n => some (mergePullRequest env n .merge true workingDir false)
              | none => none
            | none => none
          else none
        match mergeStep with
        | some mr =>
          ({ success := true, message := str "Successfully completed Git workflow",
             details := some (.workflowDone cp.1.details pr.1.details mr.1.details) },
           cp.2 ++ pr.2 ++ mr.2)
        | none =>
          ({ success := true, message := str "Successfully completed Git workflow",
             details := some (.workflowDone cp.1.details pr.1.details none) },
           cp.2 ++ pr.2)
      else (pr.1, cp.2 ++ pr.2)
    else cp

/-- The set of temporary files still existing after a trace of calls:
paths written by `writeFile` and not removed by a later `unlinkFile`. -/
def filesAfter (calls : List Call) : List (List Char) :=
  calls.foldl
    (fun fs c =>
      match c with
      | Call.writeFile p _ => fs ++ [p]
      | Call.unlinkFile p => fs.filter (fun q => q ≠ p)
      | _ => fs) []

/-- The result invariant stated by the spec: `error` is set (to a non-empty
string) iff `success` is false, and `details` is absent when `success` is
false. -/
def resultInvariant (r : WorkflowResult) : Prop :=
  (∀ e, r.error = some e → r.success = false ∧ e ≠ []) ∧
  (r.error = none → r.success = true) ∧
  (r.success = false → r.details = none)

/-- Well-formedness of an environment: the external tools never throw an
error whose message text is empty (matching real simple-git / child-process
errors, which always carry a message). -/
def Env.wf (env : Env) : Prop :=
  (∀ e, env.statusRes = .error e → e ≠ []) ∧
  (∀ e, env.addRes = .error e → e ≠ []) ∧
  (∀ e, env.commitRes = .error e → e ≠ []) ∧
  (∀ e, env.revparseRes = .error e → e ≠ []) ∧
  (∀ e, env.pushRes = .error e → e ≠ [])

/-- A fully succeeding environment: valid repository, all git calls
succeed, every CLI invocation prints a PR URL. -/
def env0 : Env where
  isRepo := true
  statusRes := .ok ()
  checkoutBranchRes := .ok ()
  checkoutRes := .ok ()
  addRes := .ok ()
  commitRes := .ok ⟨str "abc123", 1, 2, 3⟩
  revparseRes := .ok (str "feature")
  pushRes := .ok ()
  execRes := fun _ => .ok ⟨str "https://github.com/org/repo/pull/42", []⟩
  nowMs := 0

/-- Like `env0` but the working directory is not a git repository. -/
def envNotRepo : Env := { env0 with isRepo := false }

/-- Like `env0` but both branch-creation and plain branch switch throw. -/
def envBranchFail : Env :=
  { env0 with
    checkoutBranchRes := .error (str "branch already exists")
    checkoutRes := .error (str "pathspec did not match") }

/-- Like `env0` but the merge invocation for PR 42 throws while every other
CLI invocation succeeds. -/
def envMergeFail : Env :=
  { env0 with
    execRes := fun c =>
      if c = powershellWrap (mergeCommand (str "42") .merge true) then
        .error ⟨str "merge conflict", [], []⟩
      else .ok ⟨str "https://github.com/org/repo/pull/42", []⟩ }

/-- The command that `createPullRequest` actually executes for title `t`,
empty body, base `main`, head `feat`: the empty body is falsy in the source,
so no temporary file is created and the inline `--body ""` argument stays in
the command (only the title is rewritten). -/
def cexCmd : List Char :=
  str "gh pr create --title " ++ [squote, 't', squote] ++ str " --body " ++
    [dq, dq] ++ str " --base main --head feat"

/-- The head branch that `createPullRequest` ends up using: the given branch
when present and truthy, otherwise the current branch reported by
`git rev-parse`. -/
def resolvesHead (env : Env) (headBranch : Option (List Char)) (head : List Char) : Prop :=
  match headBranch with
  | some h => if h.isEmpty then env.revparseRes = Except.ok head else h = head
  | none => env.revparseRes = Except.ok head

/-- The external calls the head-resolution step of `createPullRequest`
issues: one `git rev-parse` exactly when the head branch is absent or
empty. -/
def headCalls : Option (List Char) → List Call
  | some h => if h.isEmpty then [Call.revparse] else []
  | none => [Call.revparse]

/-! ### Generic list helpers -/

theorem append_left_ne_nil {l₁ l₂ : List Char} (h : l₁ ≠ []) : l₁ ++ l₂ ≠ [] := by
  intro hc
  exact h (List.append_eq_nil.mp hc).1

theorem isPrefixOf_true_iff {l₁ l₂ : List Char} : l₁.isPrefixOf l₂ = true ↔ l₁ <+: l₂ :=
  List.isPrefixOf_iff_prefix

theorem takeWhile_append_cons (p : Char → Bool) (a : List Char) (c : Char)
    (b : List Char) (ha : ∀ x ∈ a, p x = true) (hc : p c = false) :
    (a ++ c :: b).takeWhile p = a ∧ (a ++ c :: b).dropWhile p = c :: b := by
  induction a with
  | nil =>
    constructor
    · exact List.takeWhile_cons_of_neg (by simp [hc])
    · exact List.dropWhile_cons_of_neg (by simp [hc])
  | cons x xs ih =>
    have hx : p x = true := ha x (by simp)
    have ih' := ih fun y hy => ha y (by simp [hy])
    constructor
    · simpa [List.takeWhile_cons_of_pos hx] using ih'.1
    · simpa [List.dropWhile_cons_of_pos hx] using ih'.2

/-! ### Result-invariant helpers -/

theorem resultInvariant_ok (m : List Char) (d : Option Details) :
    resultInvariant { success := true, message := m, details := d, error := none } := by
  refine ⟨fun e he => by simp at he, fun _ => rfl, fun h => by simp at h⟩

theorem resultInvariant_fail (m e : List Char) (he : e ≠ []) :
    resultInvariant { success := false, message := m, details := none, error := some e } := by
  refine ⟨fun e' he' => ⟨rfl, ?_⟩, fun h => by simp at h, fun _ => rfl⟩
  cases he'
  exact he

theorem commitAndPush_invariant (env : Env) (hwf : env.wf) (files : List (List Char))
    (cm : List Char) (branch wd : Option (List Char)) (dryRun : Bool) :
    resultInvariant (commitAndPush env files cm branch wd dryRun).1 := by
  obtain ⟨hst, hadd, hcm, hrev, hpush⟩ := hwf
  cases dryRun with
  | true => exact resultInvariant_ok _ _
  | false =>
    unfold commitAndPush
    cases env.isRepo with
    | false => exact resultInvariant_fail _ _ (by decide)
    | true =>
      cases hs : env.statusRes with
      | error e => exact resultInvariant_fail _ _ (hst e hs)
      | ok u =>
        cases branch with
        | none =>
          cases ha : env.addRes with
          | error e => exact resultInvariant_fail _ _ (hadd e ha)
          | ok _ =>
            cases hc : env.commitRes with
            | error e => exact resultInvariant_fail _ _ (hcm e hc)
            | ok cs =>
              cases hr : env.revparseRes with
              | error e => exact resultInvariant_fail _ _ (hrev e hr)
              | ok cb =>
                cases hp : env.pushRes with
                | error e => exact resultInvariant_fail _ _ (hpush e hp)
                | ok _ => exact resultInvariant_ok _ _
        | some b =>
          cases env.checkoutBranchRes with
          | ok _ =>
            cases ha : env.addRes with
            | error e => exact resultInvariant_fail _ _ (hadd e ha)
            | ok _ =>
              cases hc : env.commitRes with
              | error e => exact resultInvariant_fail _ _ (hcm e hc)
              | ok cs =>
                cases hr : env.revparseRes with
                | error e => exact resultInvariant_fail _ _ (hrev e hr)
                | ok cb =>
                  cases hp : env.pushRes with
                  | error e => exact resultInvariant_fail _ _ (hpush e hp)
                  | ok _ => exact resultInvariant_ok _ _
          | error e1 =>
            cases env.checkoutRes with
            | ok _ =>
              cases ha : env.addRes with
              | error e => exact resultInvariant_fail _ _ (hadd e ha)
              | ok _ =>
                cases hc : env.commitRes with
                | error e => exact resultInvariant_fail _ _ (hcm e hc)
                | ok cs =>
                  cases hr : env.revparseRes with
                  | error e => exact resultInvariant_fail _ _ (hrev e hr)
                  | ok cb =>
                    cases hp : env.pushRes with
                    | error e => exact resultInvariant_fail _ _ (hpush e hp)
                    | ok _ => exact resultInvariant_ok _ _
            | error e2 =>
              exact resultInvariant_fail _ _
                (append_left_ne_nil (append_left_ne_nil (append_left_ne_nil (by decide))))

theorem createPullRequest_invariant (env : Env) (title body baseBranch : List Char)
    (headBranch wd : Option (List Char)) (dryRun : Bool) :
    resultInvariant (createPullRequest env title body baseBranch headBranch wd dryRun).1 := by
  cases dryRun with
  | true => exact resultInvariant_ok _ _
  | false =>
    have hpre : str "Failed to create pull request: " ≠ [] := by decide
    have hrun : ∀ head : List Char,
        resultInvariant (createPullRequestWithHead env title body baseBranch head wd).1 := by
      intro head
      unfold createPullRequestWithHead
      dsimp only
      cases (executeGitHubCommand env (str "gh pr create --title " ++ [dq] ++ title ++
          [dq] ++ str " --body " ++ [dq] ++ body ++ [dq] ++ str " --base " ++
          baseBranch ++ str " --head " ++ head) (some title) (some body) wd).1 with
      | ok r => exact resultInvariant_ok _ _
      | error e => exact resultInvariant_fail _ _ (append_left_ne_nil hpre)
    unfold createPullRequest
    cases headBranch with
    | none =>
      dsimp only
      cases env.revparseRes with
      | error e => exact resultInvariant_fail _ _ (append_left_ne_nil hpre)
      | ok h => exact hrun h
    | some h0 =>
      dsimp only
      cases h0.isEmpty with
      | true =>
        cases env.revparseRes with
        | error e => exact resultInvariant_fail _ _ (append_left_ne_nil hpre)
        | ok h => exact hrun h
      | false => exact hrun h0

theorem mergePullRequest_invariant (env : Env) (prNumber : List Char)
    (mm : MergeMethod) (db : Bool) (wd : Option (List Char)) (dryRun : Bool) :
    resultInvariant (mergePullRequest env prNumber mm db wd dryRun).1 := by
  cases dryRun with
  | true => exact resultInvariant_ok _ _
  | false =>
    have hpre : str "Failed to merge pull request: " ≠ [] := by decide
    unfold mergePullRequest
    dsimp only
    cases (executeWithClearedTokens env (mergeCommand prNumber mm db) wd).1 with
    | ok r => exact resultInvariant_ok _ _
    | error e => exact resultInvariant_fail _ _ (append_left_ne_nil hpre)

theorem completeGitWorkflow_invariant (env : Env) (hwf : env.wf)
    (files : List (List Char)) (cm prTitle prBody : List Char)
    (branch : Option (List Char)) (baseBranch : List Char) (autoMerge : Bool)
    (wd : Option (List Char)) (dryRun : Bool) :
    resultInvariant
      (completeGitWorkflow env files cm prTitle prBody branch baseBranch autoMerge wd dryRun).1 := by
  cases dryRun with
  | true => exact resultInvariant_ok _ _
  | false =>
    simp only [completeGitWorkflow]
    cases hcp : (commitAndPush env files cm branch wd false).1.success with
    | false =>
      have h := commitAndPush_invariant env hwf files cm branch wd false
      simpa using h
    | true =>
      cases hpr : (createPullRequest env prTitle prBody baseBranch branch wd false).1.success with
      | false =>
        have h := createPullRequest_invariant env prTitle prBody baseBranch branch wd false
        simpa using h
      | true =>
        cases autoMerge with
        | false => exact resultInvariant_ok _ _
        | true =>
          cases prUrlOf (createPullRequest env prTitle prBody baseBranch branch wd false).1 with
          | none => exact resultInvariant_ok _ _
          | some url =>
            dsimp only
            cases extractPrNumber url with
            | none => exact resultInvariant_ok _ _
            | some n => exact resultInvariant_ok _ _

/-- Every call issued by `commitAndPush` goes to the git collaborator. -/
theorem commitAndPush_calls_git (env : Env) (files : List (List Char))
    (cm : List Char) (branch wd : Option (List Char)) (dryRun : Bool) :
    ((commitAndPush env files cm branch wd dryRun).2).all Call.isGit = true := by
  cases dryRun with
  | true => rfl
  | false =>
    unfold commitAndPush
    cases env.isRepo <;> cases env.statusRes <;> cases branch <;>
      cases env.checkoutBranchRes <;> cases env.checkoutRes <;> cases files <;>
      cases env.addRes <;> cases env.commitRes <;> cases env.revparseRes <;>
      cases env.pushRes <;> rfl

/-! ### Claim theorems -/

/-- C1: for every invocation of any of the four operations (in any
environment whose external tools throw only non-empty error messages), the
returned `WorkflowResult` has `error` set to a non-empty string iff
`success` is false, and `details` is absent whenever `success` is false. -/
theorem result_invariant_all_ops (env : Env) (hwf : env.wf) (files : List (List Char))
    (commitMessage title body baseBranch prNumber prTitle prBody : List Char)
    (branch headBranch workingDir : Option (List Char)) (mergeMethod : MergeMethod)
    (deleteBranch autoMerge dryRun : Bool) :
    resultInvariant (commitAndPush env files commitMessage branch workingDir dryRun).1 ∧
    resultInvariant (createPullRequest env title body baseBranch headBranch workingDir dryRun).1 ∧
    resultInvariant (mergePullRequest env prNumber mergeMethod deleteBranch workingDir dryRun).1 ∧
    resultInvariant (completeGitWorkflow env files commitMessage prTitle prBody branch
      baseBranch autoMerge workingDir dryRun).1 :=
  ⟨commitAndPush_invariant env hwf files commitMessage branch workingDir dryRun,
   createPullRequest_invariant env title body baseBranch headBranch workingDir dryRun,
   mergePullRequest_invariant env prNumber mergeMethod deleteBranch workingDir dryRun,
   completeGitWorkflow_invariant env hwf files commitMessage prTitle prBody branch
     baseBranch autoMerge workingDir dryRun⟩

/-- Witness for C1 at a concrete succeeding environment. -/
theorem result_invariant_all_ops_witness :
    Env.wf env0 ∧
    (resultInvariant (commitAndPush env0 [] (str "fix: typo") none none false).1 ∧
     resultInvariant (createPullRequest env0 (str "T") (str "B") (str "main")
       (some (str "feat")) none false).1 ∧
     resultInvariant (mergePullRequest env0 (str "42") .merge true none false).1 ∧
     resultInvariant (completeGitWorkflow env0 [] (str "fix: typo") (str "T") (str "B")
       none (str "main") true none false).1) := by
  have hwf : Env.wf env0 := by
    refine ⟨?_, ?_, ?_, ?_, ?_⟩ <;> intro e h <;> simp [env0] at h
  exact ⟨hwf,
    result_invariant_all_ops env0 hwf [] (str "fix: typo") (str "T") (str "B")
      (str "main") (str "42") (str "T") (str "B") none (some (str "feat")) none
      .merge true true false⟩

/-- C2: in a non-dry-run `completeGitWorkflow`, a failing `commitAndPush`
result is returned exactly (message/error unchanged) and only git calls are
ever issued (so neither `createPullRequest` nor `mergePullRequest` is
invoked); and after a successful commit a failing `createPullRequest`
result is returned exactly, with a trace ending at the PR step (so
`mergePullRequest` is not invoked). -/
theorem workflow_propagates_step_failure (env : Env) (files : List (List Char))
    (commitMessage prTitle prBody baseBranch : List Char)
    (branch workingDir : Option (List Char)) (autoMerge : Bool) :
    ((commitAndPush env files commitMessage branch workingDir false).1.success = false →
      completeGitWorkflow env files commitMessage prTitle prBody branch baseBranch
          autoMerge workingDir false =
        commitAndPush env files commitMessage branch workingDir false ∧
      (completeGitWorkflow env files commitMessage prTitle prBody branch baseBranch
          autoMerge workingDir false).2.all Call.isGit = true) ∧
    ((commitAndPush env files commitMessage branch workingDir false).1.success = true →
      (createPullRequest env prTitle prBody baseBranch branch workingDir false).1.success = false →
      completeGitWorkflow env files commitMessage prTitle prBody branch baseBranch
          autoMerge workingDir false =
        ((createPullRequest env prTitle prBody baseBranch branch workingDir false).1,
         (commitAndPush env files commitMessage branch workingDir false).2 ++
           (createPullRequest env prTitle prBody baseBranch branch workingDir false).2)) := by
  constructor
  · intro h
    constructor
    · simp [completeGitWorkflow, h]
    · have hgit := commitAndPush_calls_git env files commitMessage branch workingDir false
      simpa [completeGitWorkflow, h] using hgit
  · intro h1 h2
    simp [completeGitWorkflow, h1, h2]

/-- Witness for C2: with an invalid repository the commit step fails and
the composite returns its result unchanged. -/
theorem workflow_propagates_step_failure_witness :
    (commitAndPush envNotRepo [] (str "fix") none none false).1.success = false ∧
    completeGitWorkflow envNotRepo [] (str "fix") (str "T") (str "B") none (str "main")
        false none false =
      commitAndPush envNotRepo [] (str "fix") none none false := by
  have h : (commitAndPush envNotRepo [] (str "fix") none none false).1.success = false := rfl
  exact ⟨h, ((workflow_propagates_step_failure envNotRepo [] (str "fix") (str "T")
    (str "B") (str "main") none none false).1 h).1⟩

/-- C4: for each of the four operations, a dry-run invocation returns
`success = true` with the input parameters echoed in `details`, and issues
no external call at all (empty trace). -/
theorem dry_run_echoes_params (env : Env) (files : List (List Char))
    (commitMessage title body baseBranch prNumber prTitle prBody : List Char)
    (branch headBranch workingDir : Option (List Char)) (mergeMethod : MergeMethod)
    (deleteBranch autoMerge : Bool) :
    commitAndPush env files commitMessage branch workingDir true =
      ({ success := true, message := str "Dry run: Would commit and push changes",
         details := some (.commitDry files commitMessage branch workingDir),
         error := none }, []) ∧
    createPullRequest env title body baseBranch headBranch workingDir true =
      ({ success := true, message := str "Dry run: Would create pull request",
         details := some (.prDry title body baseBranch headBranch), error := none }, []) ∧
    mergePullRequest env prNumber mergeMethod deleteBranch workingDir true =
      ({ success := true, message := str "Dry run: Would merge pull request",
         details := some (.mergeDry prNumber mergeMethod.toStr deleteBranch),
         error := none }, []) ∧
    completeGitWorkflow env files commitMessage prTitle prBody branch baseBranch
        autoMerge workingDir true =
      ({ success := true, message := str "Dry run: Would execute complete Git workflow",
         details := some (.workflowDry files commitMessage prTitle prBody branch
           baseBranch autoMerge), error := none }, []) :=
  ⟨rfl, rfl, rfl, rfl⟩

/-- C6: every invocation of `createPullRequest` leaves no temporary file
behind: each file written during the call is removed by a later unlink in
the same trace, on success and failure alike. -/
theorem temp_body_file_always_removed (env : Env) (title body baseBranch : List Char)
    (headBranch workingDir : Option (List Char)) (dryRun : Bool) :
    filesAfter (createPullRequest env title body baseBranch headBranch workingDir dryRun).2 = [] := by
  have hexec : ∀ baseCommand t b cwd,
      filesAfter (executeGitHubCommand env baseCommand t b cwd).2 = [] := by
    intro baseCommand t b cwd
    unfold executeGitHubCommand
    dsimp only
    cases b with
    | none => rfl
    | some bv =>
      dsimp only
      cases bv.isEmpty with
      | true => rfl
      | false => simp [filesAfter, List.filter]
  have hrun : ∀ head,
      filesAfter (createPullRequestWithHead env title body baseBranch head workingDir).2 = [] := by
    intro head
    unfold createPullRequestWithHead
    dsimp only
    exact hexec _ _ _ _
  cases dryRun with
  | true => rfl
  | false =>
    unfold createPullRequest
    dsimp only
    cases headBranch with
    | none =>
      dsimp only
      cases env.revparseRes with
      | error e => rfl
      | ok h =>
        have := hrun h
        simpa [filesAfter] using this
    | some h0 =>
      dsimp only
      cases h0.isEmpty with
      | true =>
        cases env.revparseRes with
        | error e => rfl
        | ok h =>
          have := hrun h
          simpa [filesAfter] using this
      | false =>
        have := hrun h0
        simpa [filesAfter] using this

/-- C8: with a branch given, `commitAndPush` first attempts
create-and-switch, falls back to exactly one plain switch, and when both
fail returns a failure naming the branch and the underlying cause, with no
staging, commit, push, or further retry in the trace. -/
theorem branch_create_then_switch_fallback (env : Env) (files : List (List Char))
    (commitMessage b e2 : List Char) (workingDir : Option (List Char))
    (h1 : env.isRepo = true) (h2 : env.statusRes = .ok ())
    (h3 : ∃ e1, env.checkoutBranchRes = .error e1)
    (h4 : env.checkoutRes = .error e2) :
    commitAndPush env files commitMessage (some b) workingDir false =
      ({ success := false, message := str "Failed to commit and push",
         details := none,
         error := some (str "Failed to create or switch to branch " ++ b ++
           str ": " ++ e2) },
       [Call.checkIsRepo, Call.status, Call.checkoutBranch b, Call.checkout b]) := by
  obtain ⟨e1, h3⟩ := h3
  simp [commitAndPush, h1, h2, h3, h4, commitFailure]

/-- Witness for C8 at a concrete environment where both checkouts throw. -/
theorem branch_create_then_switch_fallback_witness :
    envBranchFail.isRepo = true ∧ envBranchFail.statusRes = .ok () ∧
    (∃ e1, envBranchFail.checkoutBranchRes = .error e1) ∧
    envBranchFail.checkoutRes = .error (str "pathspec did not match") ∧
    commitAndPush envBranchFail [] (str "fix") (some (str "feat")) none false =
      ({ success := false, message := str "Failed to commit and push", details := none,
         error := some (str "Failed to create or switch to branch " ++ str "feat" ++
           str ": " ++ str "pathspec did not match") },
       [Call.checkIsRepo, Call.status, Call.checkoutBranch (str "feat"),
        Call.checkout (str "feat")]) := by
  refine ⟨rfl, rfl, ⟨str "branch already exists", rfl⟩, rfl, ?_⟩
  exact branch_create_then_switch_fallback envBranchFail [] (str "fix") (str "feat")
    (str "pathspec did not match") none rfl rfl ⟨str "branch already exists", rfl⟩ rfl

/-- C10: `commitAndPush` with `dryRun = true` succeeds with an empty trace
even when the working directory is not a repository; the repository check
is performed only on the non-dry-run path (where, with an invalid
repository, the trace consists of exactly the check). -/
theorem dry_run_skips_repo_check (env : Env) (files : List (List Char))
    (commitMessage : List Char) (branch workingDir : Option (List Char))
    (h : env.isRepo = false) :
    (commitAndPush env files commitMessage branch workingDir true).1.success = true ∧
    (commitAndPush env files commitMessage branch workingDir true).2 = [] ∧
    commitAndPush env files commitMessage branch workingDir false =
      (commitFailure (str "Not a Git repository"), [Call.checkIsRepo]) := by
  refine ⟨rfl, rfl, ?_⟩
  simp [commitAndPush, h]

/-- Witness for C10 at a concrete non-repository environment. -/
theorem dry_run_skips_repo_check_witness :
    envNotRepo.isRepo = false ∧
    ((commitAndPush envNotRepo [] (str "fix") none none true).1.success = true ∧
     (commitAndPush envNotRepo [] (str "fix") none none true).2 = [] ∧
     commitAndPush envNotRepo [] (str "fix") none none false =
       (commitFailure (str "Not a Git repository"), [Call.checkIsRepo])) :=
  ⟨rfl, dry_run_skips_repo_check envNotRepo [] (str "fix") none none rfl⟩

/-! ### Trim and extraction helpers -/

theorem isEmpty_false_of_ne_nil {l : List Char} (h : l ≠ []) : l.isEmpty = false := by
  cases l with
  | nil => exact absurd rfl h
  | cons a t => rfl

theorem jsTrim_no_ws_ends (c d : Char) (t : List Char) (hc : isJsWs c = false)
    (hd : isJsWs d = false) : jsTrim (c :: (t ++ [d])) = c :: (t ++ [d]) := by
  unfold jsTrim
  rw [List.dropWhile_cons_of_neg (by simp [hc])]
  have h1 : (c :: (t ++ [d])).reverse = d :: (t.reverse ++ [c]) := by
    simp
  rw [h1, List.dropWhile_cons_of_neg (by simp [hd]), ← h1, List.reverse_reverse]

theorem jsTrim_one_trailing_space (c d : Char) (t : List Char) (hc : isJsWs c = false)
    (hd : isJsWs d = false) : jsTrim (c :: (t ++ [d, ' '])) = c :: (t ++ [d]) := by
  unfold jsTrim
  rw [List.dropWhile_cons_of_neg (by simp [hc])]
  have h1 : (c :: (t ++ [d, ' '])).reverse = ' ' :: (d :: (t.reverse ++ [c])) := by
    simp
  rw [h1, List.dropWhile_cons_of_pos (by decide), List.dropWhile_cons_of_neg (by simp [hd])]
  simp

/-- The regex `/\/pull\/(\d+)$/` matches with capture `n` exactly when the
URL decomposes as some prefix, the literal `/pull/`, and the non-empty
digit string `n` running to the end. -/
theorem extractPrNumber_eq_some_iff (url n : List Char) :
    extractPrNumber url = some n ↔
      (n ≠ [] ∧ (∀ c ∈ n, c.isDigit = true) ∧ ∃ p, url = p ++ str "/pull/" ++ n) := by
  constructor
  · intro h
    unfold extractPrNumber at h
    dsimp only at h
    split_ifs at h with h1 h2
    have hn : url.reverse.takeWhile Char.isDigit ≠ [] := by
      intro hc
      rw [hc] at h1
      exact h1 rfl
    cases h
    refine ⟨by simpa using hn, ?_, ?_⟩
    · intro c hcmem
      exact List.mem_takeWhile_imp (List.mem_reverse.mp hcmem)
    · obtain ⟨q, hq⟩ := isPrefixOf_true_iff.mp h2
      set A := url.reverse.takeWhile Char.isDigit with hA
      have hsplit : url.reverse = A ++ ((str "/pull/").reverse ++ q) := by
        rw [hq]
        exact (List.takeWhile_append_dropWhile Char.isDigit url.reverse).symm
      refine ⟨q.reverse, ?_⟩
      have h3 := congrArg List.reverse hsplit
      rw [List.reverse_reverse] at h3
      rw [h3]
      simp
  · rintro ⟨hn, hdig, p, rfl⟩
    unfold extractPrNumber
    dsimp only
    have hppull : (str "/pull/").reverse = '/' :: str "llup/" := by decide
    have hrev : (p ++ str "/pull/" ++ n).reverse =
        n.reverse ++ ('/' :: (str "llup/" ++ p.reverse)) := by
      rw [List.reverse_append, List.reverse_append, hppull]
      simp
    have hsplit := takeWhile_append_cons Char.isDigit n.reverse '/'
      (str "llup/" ++ p.reverse)
      (fun x hx => hdig x (List.mem_reverse.mp hx)) (by decide)
    rw [hrev, hsplit.1, hsplit.2]
    have hne : n.reverse ≠ [] := by simpa using hn
    rw [if_neg (by simp [isEmpty_false_of_ne_nil hne])]
    have hpre : (str "/pull/").reverse.isPrefixOf ('/' :: (str "llup/" ++ p.reverse)) = true := by
      apply isPrefixOf_true_iff.mpr
      have hppull : (str "/pull/").reverse = '/' :: str "llup/" := by decide
      rw [hppull]
      exact ⟨p.reverse, rfl⟩
    rw [if_pos hpre, List.reverse_reverse]

/-! ### Composite-workflow reduction helpers -/

theorem workflow_merge_some (env : Env) (files : List (List Char))
    (commitMessage prTitle prBody baseBranch : List Char)
    (branch workingDir : Option (List Char)) (url n : List Char)
    (hc : (commitAndPush env files commitMessage branch workingDir false).1.success = true)
    (hp : (createPullRequest env prTitle prBody baseBranch branch workingDir false).1.success = true)
    (hu : prUrlOf (createPullRequest env prTitle prBody baseBranch branch workingDir false).1 = some url)
    (hext : extractPrNumber url = some n) :
    completeGitWorkflow env files commitMessage prTitle prBody branch baseBranch true
        workingDir false =
      ({ success := true, message := str "Successfully completed Git workflow",
         details := some (.workflowDone
           (commitAndPush env files commitMessage branch workingDir false).1.details
           (createPullRequest env prTitle prBody baseBranch branch workingDir false).1.details
           ((mergePullRequest env n .merge true workingDir false).1.details)),
         error := none },
       (commitAndPush env files commitMessage branch workingDir false).2 ++
         (createPullRequest env prTitle prBody baseBranch branch workingDir false).2 ++
         (mergePullRequest env n .merge true workingDir false).2) := by
  simp [completeGitWorkflow, hc, hp, hu, hext]

theorem workflow_merge_skip (env : Env) (files : List (List Char))
    (commitMessage prTitle prBody baseBranch : List Char)
    (branch workingDir : Option (List Char))
    (hc : (commitAndPush env files commitMessage branch workingDir false).1.success = true)
    (hp : (createPullRequest env prTitle prBody baseBranch branch workingDir false).1.success = true)
    (hskip : ∀ url, prUrlOf (createPullRequest env prTitle prBody baseBranch branch
      workingDir false).1 = some url → extractPrNumber url = none) :
    completeGitWorkflow env files commitMessage prTitle prBody branch baseBranch true
        workingDir false =
      ({ success := true, message := str "Successfully completed Git workflow",
         details := some (.workflowDone
           (commitAndPush env files commitMessage branch workingDir false).1.details
           (createPullRequest env prTitle prBody baseBranch branch workingDir false).1.details
           none),
         error := none },
       (commitAndPush env files commitMessage branch workingDir false).2 ++
         (createPullRequest env prTitle prBody baseBranch branch workingDir false).2) := by
  cases hu : prUrlOf (createPullRequest env prTitle prBody baseBranch branch workingDir false).1 with
  | none => simp [completeGitWorkflow, hc, hp, hu]
  | some url => simp [completeGitWorkflow, hc, hp, hu, hskip url hu]

theorem mergePullRequest_failure_details (env : Env) (n : List Char)
    (wd : Option (List Char))
    (h : (mergePullRequest env n .merge true wd false).1.success = false) :
    (mergePullRequest env n .merge true wd false).1.details = none := by
  revert h
  unfold mergePullRequest
  dsimp only
  cases (executeWithClearedTokens env (mergeCommand n .merge true) wd).1 with
  | ok r => intro h; simp at h
  | error e => intro h; rfl

/-- C3: with `autoMerge` and successful commit and PR steps, when the
returned PR URL ends in `/pull/<digits>`, `mergePullRequest` is invoked
with exactly those digits, method `merge` and delete-branch `true`; when no
such decomposition exists the merge step is skipped and the workflow still
succeeds. -/
theorem workflow_auto_merge_url (env : Env) (files : List (List Char))
    (commitMessage prTitle prBody baseBranch : List Char)
    (branch workingDir : Option (List Char)) (url t' b' h' : List Char)
    (hc : (commitAndPush env files commitMessage branch workingDir false).1.success = true)
    (hp : (createPullRequest env prTitle prBody baseBranch branch workingDir false).1.success = true)
    (hd : (createPullRequest env prTitle prBody baseBranch branch workingDir false).1.details =
      some (Details.prDone url t' b' h')) :
    (∀ p n, n ≠ [] → (∀ c ∈ n, c.isDigit = true) → url = p ++ str "/pull/" ++ n →
      completeGitWorkflow env files commitMessage prTitle prBody branch baseBranch true
          workingDir false =
        ({ success := true, message := str "Successfully completed Git workflow",
           details := some (.workflowDone
             (commitAndPush env files commitMessage branch workingDir false).1.details
             (createPullRequest env prTitle prBody baseBranch branch workingDir false).1.details
             ((mergePullRequest env n .merge true workingDir false).1.details)),
           error := none },
         (commitAndPush env files commitMessage branch workingDir false).2 ++
           (createPullRequest env prTitle prBody baseBranch branch workingDir false).2 ++
           (mergePullRequest env n .merge true workingDir false).2)) ∧
    ((¬ ∃ p n, url = p ++ str "/pull/" ++ n ∧ n ≠ [] ∧ (∀ c ∈ n, c.isDigit = true)) →
      completeGitWorkflow env files commitMessage prTitle prBody branch baseBranch true
          workingDir false =
        ({ success := true, message := str "Successfully completed Git workflow",
           details := some (.workflowDone
             (commitAndPush env files commitMessage branch workingDir false).1.details
             (createPullRequest env prTitle prBody baseBranch branch workingDir false).1.details
             none),
           error := none },
         (commitAndPush env files commitMessage branch workingDir false).2 ++
           (createPullRequest env prTitle prBody baseBranch branch workingDir false).2)) := by
  constructor
  · intro p n hn hdig hurl
    have hune : url ≠ [] := by
      rw [hurl]
      intro hcon
      exact hn (List.append_eq_nil.mp hcon).2
    have hu : prUrlOf (createPullRequest env prTitle prBody baseBranch branch
        workingDir false).1 = some url := by
      simp [prUrlOf, hd, isEmpty_false_of_ne_nil hune]
    have hext : extractPrNumber url = some n :=
      (extractPrNumber_eq_some_iff url n).mpr ⟨hn, hdig, p, hurl⟩
    exact workflow_merge_some env files commitMessage prTitle prBody baseBranch branch
      workingDir url n hc hp hu hext
  · intro hno
    apply workflow_merge_skip env files commitMessage prTitle prBody baseBranch branch
      workingDir hc hp
    intro u hu
    have hmain : (if url.isEmpty then (none : Option (List Char)) else some url) = some u := by
      rw [← hu]
      simp [prUrlOf, hd]
    cases hemp : url.isEmpty with
    | true => rw [hemp] at hmain; simp at hmain
    | false =>
      rw [hemp] at hmain
      simp at hmain
      rw [← hmain]
      cases hx : extractPrNumber url with
      | none => rfl
      | some m =>
        exfalso
        obtain ⟨hm1, hm2, q, hq⟩ := (extractPrNumber_eq_some_iff url m).mp hx
        exact hno ⟨q, m, hq, hm1, hm2⟩

/-- Witness for C3 at a concrete environment whose CLI prints a GitHub PR
URL ending in `/pull/42`. -/
theorem workflow_auto_merge_url_witness :
    (commitAndPush env0 [] (str "m") (some (str "feat")) none false).1.success = true ∧
    (createPullRequest env0 (str "T") (str "B") (str "main") (some (str "feat"))
      none false).1.success = true ∧
    (createPullRequest env0 (str "T") (str "B") (str "main") (some (str "feat"))
        none false).1.details =
      some (Details.prDone (str "https://github.com/org/repo/pull/42") (str "T")
        (str "main") (str "feat")) ∧
    completeGitWorkflow env0 [] (str "m") (str "T") (str "B") (some (str "feat"))
        (str "main") true none false =
      ({ success := true, message := str "Successfully completed Git workflow",
         details := some (.workflowDone
           (commitAndPush env0 [] (str "m") (some (str "feat")) none false).1.details
           (createPullRequest env0 (str "T") (str "B") (str "main") (some (str "feat"))
             none false).1.details
           ((mergePullRequest env0 (str "42") .merge true none false).1.details)),
         error := none },
       (commitAndPush env0 [] (str "m") (some (str "feat")) none false).2 ++
         (createPullRequest env0 (str "T") (str "B") (str "main") (some (str "feat"))
           none false).2 ++
         (mergePullRequest env0 (str "42") .merge true none false).2) := by
  refine ⟨rfl, rfl, rfl, ?_⟩
  exact (workflow_auto_merge_url env0 [] (str "m") (str "T") (str "B") (str "main")
    (some (str "feat")) none (str "https://github.com/org/repo/pull/42") (str "T")
    (str "main") (str "feat") rfl rfl rfl).1 (str "https://github.com/org/repo")
    (str "42") (by decide) (by decide) (by decide)

/-- C9: when the auto-merge step is invoked and returns a failure, the
composite still returns `success = true` with the standard completion
message, discards the merge error entirely (`error = none`), and the
aggregated details carry no merge payload. -/
theorem auto_merge_failure_ignored (env : Env) (files : List (List Char))
    (commitMessage prTitle prBody baseBranch : List Char)
    (branch workingDir : Option (List Char)) (url n : List Char)
    (hc : (commitAndPush env files commitMessage branch workingDir false).1.success = true)
    (hp : (createPullRequest env prTitle prBody baseBranch branch workingDir false).1.success = true)
    (hu : prUrlOf (createPullRequest env prTitle prBody baseBranch branch workingDir false).1 = some url)
    (hext : extractPrNumber url = some n)
    (hm : (mergePullRequest env n .merge true workingDir false).1.success = false) :
    completeGitWorkflow env files commitMessage prTitle prBody branch baseBranch true
        workingDir false =
      ({ success := true, message := str "Successfully completed Git workflow",
         details := some (.workflowDone
           (commitAndPush env files commitMessage branch workingDir false).1.details
           (createPullRequest env prTitle prBody baseBranch branch workingDir false).1.details
           none),
         error := none },
       (commitAndPush env files commitMessage branch workingDir false).2 ++
         (createPullRequest env prTitle prBody baseBranch branch workingDir false).2 ++
         (mergePullRequest env n .merge true workingDir false).2) := by
  rw [workflow_merge_some env files commitMessage prTitle prBody baseBranch branch
    workingDir url n hc hp hu hext,
    mergePullRequest_failure_details env n workingDir hm]

set_option maxRecDepth 4000 in
/-- Witness for C9 at a concrete environment where exactly the merge
invocation throws. -/
theorem auto_merge_failure_ignored_witness :
    (mergePullRequest envMergeFail (str "42") .merge true none false).1.success = false ∧
    completeGitWorkflow envMergeFail [] (str "m") (str "T") (str "B") (some (str "feat"))
        (str "main") true none false =
      ({ success := true, message := str "Successfully completed Git workflow",
         details := some (.workflowDone
           (commitAndPush envMergeFail [] (str "m") (some (str "feat")) none false).1.details
           (createPullRequest envMergeFail (str "T") (str "B") (str "main")
             (some (str "feat")) none false).1.details
           none),
         error := none },
       (commitAndPush envMergeFail [] (str "m") (some (str "feat")) none false).2 ++
         (createPullRequest envMergeFail (str "T") (str "B") (str "main")
           (some (str "feat")) none false).2 ++
         (mergePullRequest envMergeFail (str "42") .merge true none false).2) := by
  refine ⟨rfl, ?_⟩
  exact auto_merge_failure_ignored envMergeFail [] (str "m") (str "T") (str "B")
    (str "main") (some (str "feat")) none (str "https://github.com/org/repo/pull/42")
    (str "42") rfl rfl rfl rfl rfl

/-- C7: the merge command carries `--squash` for method squash, `--rebase`
for rebase, `--merge` for merge; `deleteBranch = false` omits
`--delete-branch` entirely (for digit-only PR numbers) while
`deleteBranch = true` includes it. -/
theorem merge_command_flag_mapping (pr : List Char) (hdig : ∀ c ∈ pr, c.isDigit = true) :
    mergeCommand pr .squash true = str "gh pr merge " ++ pr ++ str " --squash --delete-branch" ∧
    mergeCommand pr .rebase true = str "gh pr merge " ++ pr ++ str " --rebase --delete-branch" ∧
    mergeCommand pr .merge true = str "gh pr merge " ++ pr ++ str " --merge --delete-branch" ∧
    mergeCommand pr .squash false = str "gh pr merge " ++ pr ++ str " --squash" ∧
    mergeCommand pr .rebase false = str "gh pr merge " ++ pr ++ str " --rebase" ∧
    mergeCommand pr .merge false = str "gh pr merge " ++ pr ++ str " --merge" ∧
    (∀ m : MergeMethod, ¬ str "--delete-branch" <:+: mergeCommand pr m false) ∧
    (∀ m : MergeMethod, str "--delete-branch" <:+: mergeCommand pr m true) := by
  have hg : isJsWs 'g' = false := by decide
  have hh : isJsWs 'h' = false := by decide
  have he : isJsWs 'e' = false := by decide
  have e1 : mergeCommand pr .squash true =
      str "gh pr merge " ++ pr ++ str " --squash --delete-branch" := by
    unfold mergeCommand
    dsimp only
    rw [if_pos rfl]
    rw [show str "gh pr merge " ++ pr ++ str " " ++ str "--squash" ++ str " " ++
          str "--delete-branch" =
        'g' :: ((str "h pr merge " ++ pr ++ str " --squash --delete-branc") ++ ['h']) from by
      simp only [List.append_assoc, List.cons_append]
      rfl]
    rw [jsTrim_no_ws_ends 'g' 'h' _ hg hh]
    simp only [List.append_assoc, List.cons_append]
    rfl
  have e2 : mergeCommand pr .rebase true =
      str "gh pr merge " ++ pr ++ str " --rebase --delete-branch" := by
    unfold mergeCommand
    dsimp only
    rw [if_pos rfl]
    rw [show str "gh pr merge " ++ pr ++ str " " ++ str "--rebase" ++ str " " ++
          str "--delete-branch" =
        'g' :: ((str "h pr merge " ++ pr ++ str " --rebase --delete-branc") ++ ['h']) from by
      simp only [List.append_assoc, List.cons_append]
      rfl]
    rw [jsTrim_no_ws_ends 'g' 'h' _ hg hh]
    simp only [List.append_assoc, List.cons_append]
    rfl
  have e3 : mergeCommand pr .merge true =
      str "gh pr merge " ++ pr ++ str " --merge --delete-branch" := by
    unfold mergeCommand
    dsimp only
    rw [if_pos rfl]
    rw [show str "gh pr merge " ++ pr ++ str " " ++ str "--merge" ++ str " " ++
          str "--delete-branch" =
        'g' :: ((str "h pr merge " ++ pr ++ str " --merge --delete-branc") ++ ['h']) from by
      simp only [List.append_assoc, List.cons_append]
      rfl]
    rw [jsTrim_no_ws_ends 'g' 'h' _ hg hh]
    simp only [List.append_assoc, List.cons_append]
    rfl
  have e4 : mergeCommand pr .squash false =
      str "gh pr merge " ++ pr ++ str " --squash" := by
    unfold mergeCommand
    dsimp only
    rw [if_neg (by decide)]
    rw [show str "gh pr merge " ++ pr ++ str " " ++ str "--squash" ++ str " " ++ ([] : List Char) =
        'g' :: ((str "h pr merge " ++ pr ++ str " --squas") ++ ['h', ' ']) from by
      simp only [List.append_assoc, List.cons_append, List.append_nil]
      rfl]
    rw [jsTrim_one_trailing_space 'g' 'h' _ hg hh]
    simp only [List.append_assoc, List.cons_append]
    rfl
  have e5 : mergeCommand pr .rebase false =
      str "gh pr merge " ++ pr ++ str " --rebase" := by
    unfold mergeCommand
    dsimp only
    rw [if_neg (by decide)]
    rw [show str "gh pr merge " ++ pr ++ str " " ++ str "--rebase" ++ str " " ++ ([] : List Char) =
        'g' :: ((str "h pr merge " ++ pr ++ str " --rebas") ++ ['e', ' ']) from by
      simp only [List.append_assoc, List.cons_append, List.append_nil]
      rfl]
    rw [jsTrim_one_trailing_space 'g' 'e' _ hg he]
    simp only [List.append_assoc, List.cons_append]
    rfl
  have e6 : mergeCommand pr .merge false =
      str "gh pr merge " ++ pr ++ str " --merge" := by
    unfold mergeCommand
    dsimp only
    rw [if_neg (by decide)]
    rw [show str "gh pr merge " ++ pr ++ str " " ++ str "--merge" ++ str " " ++ ([] : List Char) =
        'g' :: ((str "h pr merge " ++ pr ++ str " --merg") ++ ['e', ' ']) from by
      simp only [List.append_assoc, List.cons_append, List.append_nil]
      rfl]
    rw [jsTrim_one_trailing_space 'g' 'e' _ hg he]
    simp only [List.append_assoc, List.cons_append]
    rfl
  refine ⟨e1, e2, e3, e4, e5, e6, ?_, ?_⟩
  · intro m hinf
    have hd' : ('d' : Char) ∈ str "--delete-branch" := by decide
    have hsub : ('d' : Char) ∈ mergeCommand pr m false :=
      List.Sublist.mem hd' hinf.sublist
    have hnd : ('d' : Char) ∉ pr := by
      intro hmem
      exact absurd (hdig 'd' hmem) (by decide)
    cases m with
    | squash =>
      rw [e4] at hsub
      rcases List.mem_append.mp hsub with h1 | h2
      · rcases List.mem_append.mp h1 with h3 | h4
        · exact absurd h3 (by decide)
        · exact hnd h4
      · exact absurd h2 (by decide)
    | rebase =>
      rw [e5] at hsub
      rcases List.mem_append.mp hsub with h1 | h2
      · rcases List.mem_append.mp h1 with h3 | h4
        · exact absurd h3 (by decide)
        · exact hnd h4
      · exact absurd h2 (by decide)
    | merge =>
      rw [e6] at hsub
      rcases List.mem_append.mp hsub with h1 | h2
      · rcases List.mem_append.mp h1 with h3 | h4
        · exact absurd h3 (by decide)
        · exact hnd h4
      · exact absurd h2 (by decide)
  · intro m
    cases m with
    | squash =>
      rw [e1]
      exact ⟨str "gh pr merge " ++ pr ++ str " --squash ", [], by
        simp only [List.append_assoc, List.append_nil]
        rfl⟩
    | rebase =>
      rw [e2]
      exact ⟨str "gh pr merge " ++ pr ++ str " --rebase ", [], by
        simp only [List.append_assoc, List.append_nil]
        rfl⟩
    | merge =>
      rw [e3]
      exact ⟨str "gh pr merge " ++ pr ++ str " --merge ", [], by
        simp only [List.append_assoc, List.append_nil]
        rfl⟩

/-- Witness for C7 at the concrete PR number 42. -/
theorem merge_command_flag_mapping_witness :
    (∀ c ∈ str "42", c.isDigit = true) ∧
    mergeCommand (str "42") .squash true =
      str "gh pr merge " ++ str "42" ++ str " --squash --delete-branch" ∧
    mergeCommand (str "42") .squash false = str "gh pr merge " ++ str "42" ++ str " --squash" ∧
    (¬ str "--delete-branch" <:+: mergeCommand (str "42") .merge false) ∧
    (str "--delete-branch" <:+: mergeCommand (str "42") .merge true) := by
  have hd : ∀ c ∈ str "42", c.isDigit = true := by decide
  have h := merge_command_flag_mapping (str "42") hd
  exact ⟨hd, h.1, h.2.2.2.1, h.2.2.2.2.2.2.1 .merge, h.2.2.2.2.2.2.2 .merge⟩

/-! ### Prefix/suffix toolkit for the command-rewriting proofs -/

theorem prefix_eq_take {l₁ l₂ : List Char} : l₁ <+: l₂ ↔ l₁ = l₂.take l₁.length :=
  List.prefix_iff_eq_take

theorem suffix_cons_cases (t : List Char) (c : Char) (l : List Char) (h : t <:+ c :: l) :
    t = c :: l ∨ t <:+ l := by
  obtain ⟨u, hu⟩ := h
  cases u with
  | nil => left; simpa using hu
  | cons d u' =>
    right
    refine ⟨u', ?_⟩
    have := List.cons.inj hu
    exact this.2

theorem suffix_append_cases (t a b : List Char) (h : t <:+ a ++ b) :
    (∃ a₂, a₂ <:+ a ∧ a₂ ≠ [] ∧ t = a₂ ++ b) ∨ t <:+ b := by
  induction a with
  | nil => right; simpa using h
  | cons c a' ih =>
    obtain ⟨u, hu⟩ := h
    cases u with
    | nil =>
      left
      exact ⟨c :: a', List.suffix_rfl, by simp, by simpa using hu⟩
    | cons d u' =>
      have h2 : u' ++ t = a' ++ b := (List.cons.inj hu).2
      rcases ih ⟨u', h2⟩ with ⟨a₂, hs, hne, hteq⟩ | hb
      · exact Or.inl ⟨a₂, hs.trans (List.suffix_cons c a'), hne, hteq⟩
      · exact Or.inr hb

theorem not_prefix_of_head (a : Char) (tl : List Char) (d : Char) (ds : List Char)
    (hd : d ≠ a) : ¬ (a :: tl) <+: (d :: ds) := by
  rintro ⟨v, hv⟩
  have h1 := congrArg List.head? hv
  simp at h1
  exact hd h1.symm

theorem not_prefix_append_of_mismatch (pat k X : List Char)
    (h1 : ¬ k <+: pat) (h2 : ¬ pat <+: k) : ¬ pat <+: (k ++ X) := by
  intro hp
  rcases le_or_lt pat.length k.length with hle | hlt
  · apply h2
    have ht := prefix_eq_take.mp hp
    rw [List.take_append_eq_append_take, Nat.sub_eq_zero_of_le hle, List.take_zero,
      List.append_nil] at ht
    rw [ht]
    exact ⟨k.drop pat.length, List.take_append_drop _ _⟩
  · apply h1
    have ht := prefix_eq_take.mp hp
    rw [List.take_append_eq_append_take, List.take_of_length_le (Nat.le_of_lt hlt)] at ht
    exact ⟨X.take (pat.length - k.length), ht.symm⟩

theorem not_prefix_straddle (pat x : List Char) (c : Char) (rest : List Char)
    (hinf : ¬ pat <:+: x) (hc : c ∉ pat) :
    ∀ x₂, x₂ <:+ x → ¬ pat <+: (x₂ ++ c :: rest) := by
  intro x₂ hsuf hp
  rcases le_or_lt pat.length x₂.length with hle | hlt
  · have hpre : pat <+: x₂ := by
      have ht := prefix_eq_take.mp hp
      rw [List.take_append_eq_append_take, Nat.sub_eq_zero_of_le hle, List.take_zero,
        List.append_nil] at ht
      rw [ht]
      exact ⟨x₂.drop pat.length, List.take_append_drop _ _⟩
    obtain ⟨u, hu⟩ := hsuf
    obtain ⟨v, hv⟩ := hpre
    exact hinf ⟨u, v, by rw [← hu, ← hv]; simp⟩
  · apply hc
    have ht := prefix_eq_take.mp hp
    rw [List.take_append_eq_append_take, List.take_of_length_le (Nat.le_of_lt hlt)] at ht
    have hpos : 0 < pat.length - x₂.length := Nat.sub_pos_of_lt hlt
    obtain ⟨k, hk⟩ : ∃ k, pat.length - x₂.length = k + 1 :=
      ⟨(pat.length - x₂.length).pred, (Nat.succ_pred_eq_of_pos hpos).symm⟩
    rw [hk, List.take_succ_cons] at ht
    rw [ht]
    simp

theorem end_region (pat x : List Char) (hinf : ¬ pat <:+: x) :
    ∀ x₂, x₂ <:+ x → ¬ pat <+: x₂ := by
  intro x₂ hsuf hpre
  obtain ⟨u, hu⟩ := hsuf
  obtain ⟨v, hv⟩ := hpre
  exact hinf ⟨u, v, by rw [← hu, ← hv]; simp⟩

theorem not_prefix_in_region (pat K : List Char)
    (hK : ∀ k ∈ K.tails, k ≠ [] → ¬ k <+: pat ∧ ¬ pat <+: k) :
    ∀ k X, k <:+ K → k ≠ [] → ¬ pat <+: (k ++ X) := by
  intro k X hs hne
  have h := hK k ((List.mem_tails k K).mpr hs) hne
  exact not_prefix_append_of_mismatch pat k X h.1 h.2

theorem not_prefix_in_region_glued (pat K : List Char) (g : Char)
    (hK : ∀ k ∈ K.tails, k ≠ [] → ¬ (k ++ [g]) <+: pat ∧ ¬ pat <+: (k ++ [g])) :
    ∀ k X, k <:+ K → k ≠ [] → ¬ pat <+: ((k ++ [g]) ++ X) := by
  intro k X hs hne
  have h := hK k ((List.mem_tails k K).mpr hs) hne
  exact not_prefix_append_of_mismatch pat (k ++ [g]) X h.1 h.2

theorem replaceFirstAux_append_no_match (m : List Char → Option (Nat × List (List Char)))
    (repl a t : List Char)
    (h : ∀ a₂, a₂ <:+ a → a₂ ≠ [] → m (a₂ ++ t) = none) :
    ∀ pre, replaceFirstAux m repl pre (a ++ t) =
      a ++ replaceFirstAux m repl (a.reverse ++ pre) t := by
  induction a with
  | nil => intro pre; rfl
  | cons c a' ih =>
    intro pre
    have h1 : m (c :: (a' ++ t)) = none := h (c :: a') List.suffix_rfl (by simp)
    simp only [List.cons_append, replaceFirstAux, List.append_eq, h1]
    refine congrArg (c :: ·) ?_
    rw [ih (fun a₂ hs hne => h a₂ (hs.trans (List.suffix_cons c a')) hne) (c :: pre)]
    rw [List.reverse_cons, List.append_assoc]
    rfl

theorem replaceFirstAux_eq_self_no_match (m : List Char → Option (Nat × List (List Char)))
    (repl a : List Char)
    (h : ∀ a₂, a₂ <:+ a → a₂ ≠ [] → m a₂ = none) :
    ∀ pre, replaceFirstAux m repl pre a = a := by
  induction a with
  | nil => intro pre; rfl
  | cons c a' ih =>
    intro pre
    have h1 : m (c :: a') = none := h (c :: a') List.suffix_rfl (by simp)
    simp only [replaceFirstAux, h1]
    exact congrArg (c :: ·)
      (ih (fun a₂ hs hne => h a₂ (hs.trans (List.suffix_cons c a')) hne) (c :: pre))

theorem replaceFirstAux_cons_hit (m : List Char → Option (Nat × List (List Char)))
    (repl pre : List Char) (c : Char) (s : List Char) (n : Nat) (caps : List (List Char))
    (h : m (c :: s) = some (n, caps)) :
    replaceFirstAux m repl pre (c :: s) =
      getSubstitution ((c :: s).take n) pre.reverse ((c :: s).drop n) caps repl ++
        (c :: s).drop n := by
  simp only [replaceFirstAux, h]

theorem getSubMain_no_dollar (matched before after : List Char) (caps : List (List Char)) :
    ∀ fuel l, l.length < fuel → '$' ∉ l → getSubMain matched before after caps fuel l = l := by
  intro fuel
  induction fuel with
  | zero =>
    intro l hl
    exact absurd hl (by omega)
  | succ f ih =>
    intro l hl hd
    cases l with
    | nil => rfl
    | cons c rest =>
      have hc : c ≠ '$' := fun hc => hd (hc ▸ List.mem_cons_self c rest)
      have hr : '$' ∉ rest := fun hm => hd (List.mem_cons_of_mem c hm)
      have hlen : rest.length < f := by
        simp only [List.length_cons] at hl
        omega
      unfold getSubMain
      rw [if_neg hc]
      exact congrArg (c :: ·) (ih rest hlen hr)

theorem getSubstitution_no_dollar (matched before after : List Char)
    (caps : List (List Char)) (repl : List Char) (h : '$' ∉ repl) :
    getSubstitution matched before after caps repl = repl :=
  getSubMain_no_dollar matched before after caps (repl.length + 1) repl
    (Nat.lt_succ_self _) h

/-! ### Digits of `Date.now()` -/

theorem digitChar_isDigit (m : Nat) (h : m < 10) : (Nat.digitChar m).isDigit = true := by
  interval_cases m <;> decide

theorem toDigitsCore_digits (fuel : Nat) :
    ∀ k acc, (∀ c ∈ acc, c.isDigit = true) → k < fuel →
      ∀ c ∈ Nat.toDigitsCore 10 fuel k acc, c.isDigit = true := by
  induction fuel with
  | zero => intro k acc _ hfuel; exact absurd hfuel (Nat.not_lt_zero k)
  | succ f ih =>
    intro k acc hacc hfuel c hc
    have hstep : ∀ x ∈ (Nat.digitChar (k % 10) :: acc), x.isDigit = true := by
      intro x hx
      rcases List.mem_cons.mp hx with rfl | hx
      · exact digitChar_isDigit _ (Nat.mod_lt _ (by decide))
      · exact hacc x hx
    unfold Nat.toDigitsCore at hc
    by_cases h10 : k / 10 = 0
    · rw [if_pos h10] at hc
      exact hstep c hc
    · rw [if_neg h10] at hc
      have hk0 : 0 < k := by
        rcases Nat.eq_zero_or_pos k with rfl | h
        · exact absurd (by decide) h10
        · exact h
      have hlt : k / 10 < f :=
        Nat.lt_of_lt_of_le (Nat.div_lt_self hk0 (by decide)) (Nat.le_of_lt_succ hfuel)
      exact ih (k / 10) _ hstep hlt c hc

theorem toDigitsCore_ne_nil (fuel : Nat) :
    ∀ k acc, acc ≠ [] → Nat.toDigitsCore 10 fuel k acc ≠ [] := by
  induction fuel with
  | zero => intro k acc hacc; exact hacc
  | succ f ih =>
    intro k acc hacc
    unfold Nat.toDigitsCore
    by_cases h10 : k / 10 = 0
    · rw [if_pos h10]; simp
    · rw [if_neg h10]; exact ih _ _ (by simp)

theorem str_toString_digits (k : Nat) : ∀ c ∈ str (toString k), c.isDigit = true := by
  have h : str (toString k) = Nat.toDigitsCore 10 (k + 1) k [] := rfl
  rw [h]
  exact toDigitsCore_digits (k + 1) k [] (by simp) (Nat.lt_succ_self k)

theorem str_toString_ne_nil (k : Nat) : str (toString k) ≠ [] := by
  have h : str (toString k) = Nat.toDigitsCore 10 (k + 1) k [] := rfl
  rw [h]
  unfold Nat.toDigitsCore
  by_cases h10 : k / 10 = 0
  · rw [if_pos h10]; simp
  · rw [if_neg h10]; exact toDigitsCore_ne_nil _ _ _ (by simp)

theorem no_body_after_single_dash (ds Y : List Char) (hds : ds ≠ [])
    (hdig : ∀ c ∈ ds, c.isDigit = true) :
    ¬ str "--body" <+: ('-' :: (ds ++ Y)) := by
  rintro ⟨v, hv⟩
  cases ds with
  | nil => exact absurd rfl hds
  | cons d ds' =>
    have h1 : ('-' :: (str "-body" ++ v)) = '-' :: (d :: (ds' ++ Y)) := hv
    have h2 : ('-' :: (str "body" ++ v)) = d :: (ds' ++ Y) := (List.cons.injEq .. ▸ h1).2
    have h3 : '-' = d := (List.cons.injEq .. ▸ h2).1
    have hd := hdig d (List.mem_cons_self d ds')
    rw [← h3] at hd
    exact absurd hd (by decide)

theorem mem_replaceAllChar (c : Char) (r l : List Char) (x : Char)
    (h : x ∈ replaceAllChar c r l) : x ∈ r ∨ x ∈ l := by
  induction l with
  | nil => exact absurd h (by simp [replaceAllChar])
  | cons a t ih =>
    unfold replaceAllChar at h
    rcases List.mem_append.mp h with h1 | h2
    · by_cases ha : a = c
      · rw [if_pos ha] at h1
        exact Or.inl h1
      · rw [if_neg ha] at h1
        simp at h1
        exact Or.inr (h1 ▸ List.mem_cons_self a t)
    · rcases ih h2 with hr | hl
      · exact Or.inl hr
      · exact Or.inr (List.mem_cons_of_mem a hl)

theorem replaceAllChar_eq_self (c : Char) (r l : List Char) (h : c ∉ l) :
    replaceAllChar c r l = l := by
  induction l with
  | nil => rfl
  | cons a t ih =>
    have ha : a ≠ c := fun he => h (he ▸ List.mem_cons_self a t)
    unfold replaceAllChar
    rw [if_neg ha, ih (fun hm => h (List.mem_cons_of_mem a hm))]
    rfl

theorem dollar_not_mem_tempBodyPath (nowMs : Nat) : '$' ∉ tempBodyPath nowMs := by
  intro h
  unfold tempBodyPath at h
  rcases List.mem_append.mp h with h1 | h2
  · rcases List.mem_append.mp h1 with h3 | h4
    · exact absurd h3 (by decide)
    · exact absurd (str_toString_digits nowMs '$' h4) (by decide)
  · exact absurd h2 (by decide)

theorem dollar_not_mem_bodyFileRepl (nowMs : Nat) :
    '$' ∉ bodyFileRepl (tempBodyPath nowMs) := by
  intro h
  unfold bodyFileRepl at h
  rcases List.mem_append.mp h with h1 | h2
  · rcases List.mem_append.mp h1 with h3 | h4
    · rcases List.mem_append.mp h3 with h5 | h6
      · exact absurd h5 (by decide)
      · exact absurd h6 (by decide)
    · exact dollar_not_mem_tempBodyPath nowMs h4
  · exact absurd h2 (by decide)

theorem dollar_not_mem_escape (title : List Char) (hds : '$' ∉ title) :
    '$' ∉ escapePowerShellString title := by
  intro h
  unfold escapePowerShellString at h
  have hl2 : '$' ∉ replaceAllChar btick [btick, btick]
      (replaceAllChar squote [squote, squote] title) := by
    intro hx
    rcases mem_replaceAllChar _ _ _ _ hx with h3 | h4
    · exact absurd h3 (by decide)
    · rcases mem_replaceAllChar _ _ _ _ h4 with h5 | h6
      · exact absurd h5 (by decide)
      · exact hds h6
  rcases mem_replaceAllChar _ _ _ _ h with h1 | h2
  · exact absurd h1 (by decide)
  · rw [replaceAllChar_eq_self _ _ _ hl2] at h2
    exact hl2 h2

theorem dollar_not_mem_titleRepl (title : List Char) (hds : '$' ∉ title) :
    '$' ∉ (str "--title " ++ [squote] ++ escapePowerShellString title ++ [squote]) := by
  intro h
  rcases List.mem_append.mp h with h1 | h2
  · rcases List.mem_append.mp h1 with h3 | h4
    · rcases List.mem_append.mp h3 with h5 | h6
      · exact absurd h5 (by decide)
      · exact absurd h6 (by decide)
    · exact dollar_not_mem_escape title hds h4
  · exact absurd h2 (by decide)

/-! ### The matchers return `none` where the pattern is not a prefix -/

theorem matchBodyQuotedAt_none_of_not_prefix (s : List Char)
    (h : ¬ str "--body" <+: s) : matchBodyQuotedAt s = none := by
  unfold matchBodyQuotedAt
  rw [if_neg fun hc => h (isPrefixOf_true_iff.mp hc)]

theorem matchBodyUnquotedAt_none_of_not_prefix (s : List Char)
    (h : ¬ str "--body" <+: s) : matchBodyUnquotedAt s = none := by
  unfold matchBodyUnquotedAt
  rw [if_neg fun hc => h (isPrefixOf_true_iff.mp hc)]

theorem matchTitleAt_none_of_not_prefix (s : List Char)
    (h : ¬ str "--title" <+: s) : matchTitleAt s = none := by
  unfold matchTitleAt
  rw [if_neg fun hc => h (isPrefixOf_true_iff.mp hc)]

theorem matchBodyUnquotedAt_at_repl (X : List Char) :
    matchBodyUnquotedAt (str "--body-file " ++ X) = none := rfl

/-! ### The matchers at their intended match sites -/

theorem matchBodyQuotedAt_hit (body X : List Char) (hbq : dq ∉ body) :
    matchBodyQuotedAt (str "--body " ++ (dq :: (body ++ (dq :: X)))) =
      some (9 + body.length, []) := by
  have hkey : (body ++ (dq :: X)).takeWhile (fun x => x ≠ dq) = body :=
    (takeWhile_append_cons _ body dq X
      (fun x hx => by simp; exact fun h => hbq (h ▸ hx)) (by simp)).1
  have hdrop : (body ++ (dq :: X)).drop body.length = dq :: X := List.drop_left body (dq :: X)
  show (let inner := ((body ++ (dq :: X)).takeWhile (fun x => x ≠ dq)).length;
    match (body ++ (dq :: X)).drop inner with
    | c2 :: _ => if c2 = dq then some (6 + 1 + 1 + inner + 1, ([] : List (List Char))) else none
    | [] => none) = some (9 + body.length, [])
  rw [show ((body ++ (dq :: X)).takeWhile (fun x => x ≠ dq)).length = body.length from
    congrArg List.length hkey]
  show (match (body ++ (dq :: X)).drop body.length with
    | c2 :: _ => if c2 = dq then some (6 + 1 + 1 + body.length + 1, ([] : List (List Char)))
        else none
    | [] => none) = some (9 + body.length, [])
  rw [hdrop]
  show (if dq = dq then some (6 + 1 + 1 + body.length + 1, ([] : List (List Char))) else none) =
    some (9 + body.length, [])
  rw [if_pos rfl]
  rw [show 6 + 1 + 1 + body.length + 1 = 9 + body.length from by omega]

theorem matchTitleAt_hit (title X : List Char) (htq : dq ∉ title) :
    matchTitleAt (str "--title " ++ (dq :: (title ++ (dq :: X)))) =
      some (10 + title.length, [title]) := by
  have hkey : (title ++ (dq :: X)).takeWhile (fun x => x ≠ dq) = title :=
    (takeWhile_append_cons _ title dq X
      (fun x hx => by simp; exact fun h => htq (h ▸ hx)) (by simp)).1
  have hdrop : (title ++ (dq :: X)).drop title.length = dq :: X := List.drop_left title (dq :: X)
  show (let cap := (title ++ (dq :: X)).takeWhile (fun x => x ≠ dq);
    match (title ++ (dq :: X)).drop cap.length with
    | c2 :: _ => if c2 = dq then some (7 + 1 + 1 + cap.length + 1, [cap]) else none
    | [] => none) = some (10 + title.length, [title])
  rw [hkey]
  show (match (title ++ (dq :: X)).drop title.length with
    | c2 :: _ => if c2 = dq then some (7 + 1 + 1 + title.length + 1, [title]) else none
    | [] => none) = some (10 + title.length, [title])
  rw [hdrop]
  show (if dq = dq then some (7 + 1 + 1 + title.length + 1, [title]) else none) =
    some (10 + title.length, [title])
  rw [if_pos rfl]
  rw [show 7 + 1 + 1 + title.length + 1 = 10 + title.length from by omega]

theorem drop_body_region (body X : List Char) :
    (str "--body " ++ (dq :: (body ++ (dq :: X)))).drop (9 + body.length) = X := by
  have h : str "--body " ++ (dq :: (body ++ (dq :: X))) =
      ((str "--body " ++ (dq :: body)) ++ [dq]) ++ X := by
    simp only [List.append_assoc, List.cons_append, List.singleton_append, List.nil_append]
  have h7 : (str "--body ").length = 7 := rfl
  have hl : ((str "--body " ++ (dq :: body)) ++ [dq]).length = 9 + body.length := by
    simp only [List.length_append, List.length_cons, List.length_nil, h7]
    omega
  rw [h, ← hl]
  exact List.drop_left _ _

/-! ### No occurrence of `--body` outside its match site -/

theorem no_body_in_A_region (title T : List Char) (htb : ¬ str "--body" <:+: title) :
    ∀ a₂, a₂ <:+ ((str "gh pr create --title " ++ [dq]) ++ (title ++ [dq, ' '])) →
      a₂ ≠ [] → ¬ str "--body" <+: (a₂ ++ T) := by
  intro a₂ hsuf hne
  rcases suffix_append_cases _ _ _ hsuf with ⟨k, hk, hkne, rfl⟩ | h2
  · rw [List.append_assoc]
    exact not_prefix_in_region (str "--body") (str "gh pr create --title " ++ [dq])
      (by decide) k _ hk hkne
  · rcases suffix_append_cases _ _ _ h2 with ⟨t₂, ht₂, _, rfl⟩ | h3
    · rw [List.append_assoc]
      exact not_prefix_straddle (str "--body") title dq (' ' :: T) htb (by decide) t₂ ht₂
    · rcases suffix_cons_cases _ _ _ h3 with rfl | h4
      · exact not_prefix_of_head '-' (str "-body") dq (' ' :: T) (by decide)
      · rcases suffix_cons_cases _ _ _ h4 with rfl | h5
        · exact not_prefix_of_head '-' (str "-body") ' ' T (by decide)
        · exact absurd (List.suffix_nil.mp h5) hne

theorem no_body_in_R2_region (base head : List Char)
    (hbb : ¬ str "--body" <:+: base) (hhb : ¬ str "--body" <:+: head) :
    ∀ s₂, s₂ <:+ (str " --base " ++ (base ++ (str " --head " ++ head))) → s₂ ≠ [] →
      ¬ str "--body" <+: s₂ := by
  intro s₂ hsuf hne
  rcases suffix_append_cases _ _ _ hsuf with ⟨k, hk, hkne, rfl⟩ | h2
  · exact not_prefix_in_region (str "--body") (str " --base ") (by decide) k _ hk hkne
  · rcases suffix_append_cases _ _ _ h2 with ⟨b₂, hb₂, _, rfl⟩ | h3
    · exact not_prefix_straddle (str "--body") base ' ' (str "--head " ++ head) hbb
        (by decide) b₂ hb₂
    · rcases suffix_append_cases _ _ _ h3 with ⟨m₂, hm₂, hm₂ne, rfl⟩ | h4
      · exact not_prefix_in_region (str "--body") (str " --head ") (by decide) m₂ head hm₂ hm₂ne
      · exact end_region (str "--body") head hhb s₂ h4

theorem matchBodyUnquotedAt_none_on_repl (ds R : List Char)
    (hds : ds ≠ []) (hdig : ∀ c ∈ ds, c.isDigit = true)
    (hR : ∀ s₂, s₂ <:+ R → s₂ ≠ [] → ¬ str "--body" <+: s₂) :
    ∀ s₂, s₂ <:+ ('-' :: (str "-body-file " ++ ([dq] ++
        ((str "/tmp/gh-pr-body" ++ ['-']) ++ (ds ++ (str ".txt" ++ ([dq] ++ R))))))) →
      s₂ ≠ [] → matchBodyUnquotedAt s₂ = none := by
  intro s₂ hsuf hne
  rcases suffix_cons_cases s₂ '-' (str "-body-file " ++ ([dq] ++
      ((str "/tmp/gh-pr-body" ++ ['-']) ++ (ds ++ (str ".txt" ++ ([dq] ++ R)))))) hsuf
    with rfl | h2
  · exact matchBodyUnquotedAt_at_repl
      ([dq] ++ ((str "/tmp/gh-pr-body" ++ ['-']) ++ (ds ++ (str ".txt" ++ ([dq] ++ R)))))
  apply matchBodyUnquotedAt_none_of_not_prefix
  rcases suffix_append_cases s₂ (str "-body-file ") ([dq] ++
      ((str "/tmp/gh-pr-body" ++ ['-']) ++ (ds ++ (str ".txt" ++ ([dq] ++ R))))) h2
    with ⟨k, hk, hkne, rfl⟩ | h3
  · exact not_prefix_in_region (str "--body") (str "-body-file ") (by decide) k _ hk hkne
  rcases suffix_cons_cases s₂ dq
      ((str "/tmp/gh-pr-body" ++ ['-']) ++ (ds ++ (str ".txt" ++ ([dq] ++ R)))) h3
    with rfl | h4
  · exact not_prefix_of_head '-' (str "-body") dq _ (by decide)
  rcases suffix_append_cases s₂ (str "/tmp/gh-pr-body" ++ ['-'])
      (ds ++ (str ".txt" ++ ([dq] ++ R))) h4 with ⟨g₂, hg₂, hg₂ne, rfl⟩ | h5
  · rcases suffix_append_cases g₂ (str "/tmp/gh-pr-body") ['-'] hg₂
      with ⟨k, hk, hkne, rfl⟩ | h6
    · exact not_prefix_in_region_glued (str "--body") (str "/tmp/gh-pr-body") '-'
        (by decide) k _ hk hkne
    · rcases suffix_cons_cases g₂ '-' [] h6 with rfl | h7
      · exact no_body_after_single_dash ds (str ".txt" ++ ([dq] ++ R)) hds hdig
      · exact absurd (List.suffix_nil.mp h7) hg₂ne
  rcases suffix_append_cases s₂ ds (str ".txt" ++ ([dq] ++ R)) h5
    with ⟨d₂, hd₂, hd₂ne, rfl⟩ | h6
  · cases d₂ with
    | nil => exact absurd rfl hd₂ne
    | cons e d₂' =>
      have he : e ∈ ds := hd₂.sublist.subset (List.mem_cons_self e d₂')
      have hene : e ≠ '-' := fun h => absurd (h ▸ hdig e he) (by decide)
      exact not_prefix_of_head '-' (str "-body") e _ hene
  rcases suffix_append_cases s₂ (str ".txt") ([dq] ++ R) h6 with ⟨k, hk, hkne, rfl⟩ | h7
  · exact not_prefix_in_region (str "--body") (str ".txt") (by decide) k _ hk hkne
  rcases suffix_cons_cases s₂ dq R h7 with rfl | h8
  · exact not_prefix_of_head '-' (str "-body") dq _ (by decide)
  · exact hR s₂ h8 hne

theorem drop_title_region (title X : List Char) :
    (str "--title " ++ (dq :: (title ++ (dq :: X)))).drop (10 + title.length) = X := by
  have h : str "--title " ++ (dq :: (title ++ (dq :: X))) =
      ((str "--title " ++ (dq :: title)) ++ [dq]) ++ X := by
    simp only [List.append_assoc, List.cons_append, List.singleton_append, List.nil_append]
  have h8 : (str "--title ").length = 8 := rfl
  have hl : ((str "--title " ++ (dq :: title)) ++ [dq]).length = 10 + title.length := by
    simp only [List.length_append, List.length_cons, List.length_nil, h8]
    omega
  rw [h, ← hl]
  exact List.drop_left _ _

theorem executeGitHubCommand_trace (env : Env) (cmd title body : List Char)
    (wd : Option (List Char)) (hb : body ≠ []) (ht : title ≠ []) :
    (executeGitHubCommand env cmd (some title) (some body) wd).2 =
      [Call.writeFile (tempBodyPath env.nowMs) body,
       Call.execCommand (powershellWrap (replaceFirst matchTitleAt
         (str "--title " ++ [squote] ++ escapePowerShellString title ++ [squote])
         (replaceFirst matchBodyUnquotedAt (bodyFileRepl (tempBodyPath env.nowMs))
           (replaceFirst matchBodyQuotedAt (bodyFileRepl (tempBodyPath env.nowMs)) cmd)))),
       Call.unlinkFile (tempBodyPath env.nowMs)] := by
  obtain ⟨b0, brest, rfl⟩ : ∃ b0 brest, body = b0 :: brest := by
    cases body with
    | nil => exact absurd rfl hb
    | cons b0 brest => exact ⟨b0, brest, rfl⟩
  obtain ⟨t0, trest, rfl⟩ : ∃ t0 trest, title = t0 :: trest := by
    cases title with
    | nil => exact absurd rfl ht
    | cons t0 trest => exact ⟨t0, trest, rfl⟩
  rfl

theorem executeGitHubCommand_body_title_rewrite (nowMs : Nat)
    (title body base head : List Char)
    (hbq : dq ∉ body) (htq : dq ∉ title) (hds : '$' ∉ title)
    (htb : ¬ str "--body" <:+: title)
    (hbb : ¬ str "--body" <:+: base)
    (hhb : ¬ str "--body" <:+: head) :
    replaceFirst matchTitleAt
        (str "--title " ++ [squote] ++ escapePowerShellString title ++ [squote])
        (replaceFirst matchBodyUnquotedAt (bodyFileRepl (tempBodyPath nowMs))
          (replaceFirst matchBodyQuotedAt (bodyFileRepl (tempBodyPath nowMs))
            (str "gh pr create --title " ++ [dq] ++ title ++ [dq] ++
             str " --body " ++ [dq] ++ body ++ [dq] ++
             str " --base " ++ base ++ str " --head " ++ head))) =
      str "gh pr create " ++
        ((str "--title " ++ [squote] ++ escapePowerShellString title ++ [squote]) ++
         (' ' :: (bodyFileRepl (tempBodyPath nowMs) ++
           (str " --base " ++ (base ++ (str " --head " ++ head)))))) := by
  have hbase : str "gh pr create --title " ++ [dq] ++ title ++ [dq] ++
      str " --body " ++ [dq] ++ body ++ [dq] ++ str " --base " ++ base ++
      str " --head " ++ head =
      ((str "gh pr create --title " ++ [dq]) ++ (title ++ [dq, ' '])) ++
        ('-' :: (str "-body " ++ (dq :: (body ++ (dq ::
          (str " --base " ++ (base ++ (str " --head " ++ head)))))))) := by
    simp only [List.append_assoc, List.cons_append, List.singleton_append, List.nil_append]
    rfl
  unfold replaceFirst
  rw [hbase]
  rw [replaceFirstAux_append_no_match matchBodyQuotedAt _ _ _
    (fun a₂ hs hne => matchBodyQuotedAt_none_of_not_prefix _
      (no_body_in_A_region title _ htb a₂ hs hne)) []]
  have hhit1 : matchBodyQuotedAt ('-' :: (str "-body " ++ (dq :: (body ++ (dq ::
      (str " --base " ++ (base ++ (str " --head " ++ head)))))))) =
      some (9 + body.length, []) := matchBodyQuotedAt_hit body _ hbq
  have hdrop1 : ('-' :: (str "-body " ++ (dq :: (body ++ (dq ::
      (str " --base " ++ (base ++ (str " --head " ++ head)))))))).drop (9 + body.length) =
      str " --base " ++ (base ++ (str " --head " ++ head)) := drop_body_region body _
  rw [replaceFirstAux_cons_hit matchBodyQuotedAt _ _ '-' _ _ _ hhit1]
  rw [getSubstitution_no_dollar _ _ _ _ _ (dollar_not_mem_bodyFileRepl nowMs)]
  rw [hdrop1]
  have hself : ∀ s₂, s₂ <:+ (bodyFileRepl (tempBodyPath nowMs) ++
      (str " --base " ++ (base ++ (str " --head " ++ head)))) → s₂ ≠ [] →
      matchBodyUnquotedAt s₂ = none := by
    have hshape : bodyFileRepl (tempBodyPath nowMs) ++
        (str " --base " ++ (base ++ (str " --head " ++ head))) =
        '-' :: (str "-body-file " ++ ([dq] ++ ((str "/tmp/gh-pr-body" ++ ['-']) ++
          (str (toString nowMs) ++ (str ".txt" ++ ([dq] ++
            (str " --base " ++ (base ++ (str " --head " ++ head))))))))) := by
      simp only [bodyFileRepl, tempBodyPath, List.append_assoc, List.cons_append,
        List.singleton_append, List.nil_append]
      rfl
    intro s₂ hs hne
    exact matchBodyUnquotedAt_none_on_repl (str (toString nowMs)) _
      (str_toString_ne_nil nowMs) (str_toString_digits nowMs)
      (no_body_in_R2_region base head hbb hhb) s₂ (hshape ▸ hs) hne
  rw [replaceFirstAux_append_no_match matchBodyUnquotedAt _ _ _
    (fun a₂ hs hne => matchBodyUnquotedAt_none_of_not_prefix _
      (no_body_in_A_region title _ htb a₂ hs hne)) []]
  rw [replaceFirstAux_eq_self_no_match matchBodyUnquotedAt _ _ hself _]
  have hshape2 : ((str "gh pr create --title " ++ [dq]) ++ (title ++ [dq, ' '])) ++
      (bodyFileRepl (tempBodyPath nowMs) ++
        (str " --base " ++ (base ++ (str " --head " ++ head)))) =
      str "gh pr create " ++ ('-' :: (str "-title " ++ (dq :: (title ++ (dq :: (' ' ::
        (bodyFileRepl (tempBodyPath nowMs) ++
          (str " --base " ++ (base ++ (str " --head " ++ head)))))))))) := by
    simp only [List.append_assoc, List.cons_append, List.singleton_append, List.nil_append]
    rfl
  rw [hshape2]
  rw [replaceFirstAux_append_no_match matchTitleAt _ _ _
    (fun k hs hne => matchTitleAt_none_of_not_prefix _
      (not_prefix_in_region (str "--title") (str "gh pr create ") (by decide) k _ hs hne)) []]
  have hhit2 : matchTitleAt ('-' :: (str "-title " ++ (dq :: (title ++ (dq :: (' ' ::
      (bodyFileRepl (tempBodyPath nowMs) ++
        (str " --base " ++ (base ++ (str " --head " ++ head)))))))))) =
      some (10 + title.length, [title]) := matchTitleAt_hit title _ htq
  have hdrop2 : ('-' :: (str "-title " ++ (dq :: (title ++ (dq :: (' ' ::
      (bodyFileRepl (tempBodyPath nowMs) ++
        (str " --base " ++ (base ++ (str " --head " ++ head)))))))))).drop
      (10 + title.length) =
      ' ' :: (bodyFileRepl (tempBodyPath nowMs) ++
        (str " --base " ++ (base ++ (str " --head " ++ head)))) := drop_title_region title _
  rw [replaceFirstAux_cons_hit matchTitleAt _ _ '-' _ _ _ hhit2]
  rw [getSubstitution_no_dollar _ _ _ _ _ (dollar_not_mem_titleRepl title hds)]
  rw [hdrop2]

/-- **C5** counterexample: with an empty body the source skips the temporary
file entirely (the body option is falsy in JavaScript), so the executed
command keeps the body inline as `--body ""`, no `--body-file` argument
appears, and no file is written — refuting the claim for every body. -/
theorem pr_body_inline_when_body_empty :
    (createPullRequest env0 (str "t") [] (str "main") (some (str "feat")) none false).2 =
      [Call.execCommand (powershellWrap cexCmd)] ∧
    ¬ str "--body-file" <:+: cexCmd := by
  constructor
  · rfl
  · decide

theorem createPullRequestWithHead_trace (env : Env) (title body base head : List Char)
    (wd : Option (List Char))
    (hb : body ≠ []) (hbq : dq ∉ body)
    (ht : title ≠ []) (htq : dq ∉ title) (hdol : '$' ∉ title)
    (htb : ¬ str "--body" <:+: title)
    (hbb : ¬ str "--body" <:+: base)
    (hhb : ¬ str "--body" <:+: head) :
    (createPullRequestWithHead env title body base head wd).2 =
      [Call.writeFile (tempBodyPath env.nowMs) body,
       Call.execCommand (powershellWrap (str "gh pr create " ++
         ((str "--title " ++ [squote] ++ escapePowerShellString title ++ [squote]) ++
          (' ' :: (bodyFileRepl (tempBodyPath env.nowMs) ++
            (str " --base " ++ (base ++ (str " --head " ++ head)))))))),
       Call.unlinkFile (tempBodyPath env.nowMs)] := by
  rw [show (createPullRequestWithHead env title body base head wd).2 =
      (executeGitHubCommand env (str "gh pr create --title " ++ [dq] ++ title ++ [dq] ++
        str " --body " ++ [dq] ++ body ++ [dq] ++ str " --base " ++ base ++
        str " --head " ++ head) (some title) (some body) wd).2 from rfl]
  rw [executeGitHubCommand_trace env _ title body wd hb ht]
  rw [executeGitHubCommand_body_title_rewrite env.nowMs title body base head
    hbq htq hdol htb hbb hhb]

/-- **C5**: for every non-dry-run `createPullRequest` with a non-empty body
and a non-empty title, neither containing a double quote, the title
containing no dollar sign (a dollar in the replacement text would trigger
ECMAScript `$`-substitution), and with no literal `--body` text occurring in
the title, base, or head branch, whichever way the head branch resolves
(given non-empty, or read from `git rev-parse` when absent or empty), the
executed command delivers the body via a temporary file: the call trace
writes the body to the temp path, runs the command with
`--body-file "<temp path>"` in place of the inline `--body "…"` argument and
with the title single-quoted and PowerShell-escaped, and afterwards unlinks
the temp file. -/
theorem pr_body_via_temp_file_and_title_escaped (env : Env)
    (title body base : List Char) (headBranch : Option (List Char))
    (head : List Char) (wd : Option (List Char))
    (hb : body ≠ []) (hbq : dq ∉ body)
    (ht : title ≠ []) (htq : dq ∉ title) (hdol : '$' ∉ title)
    (htb : ¬ str "--body" <:+: title)
    (hbb : ¬ str "--body" <:+: base)
    (hhb : ¬ str "--body" <:+: head)
    (hhead : resolvesHead env headBranch head) :
    (createPullRequest env title body base headBranch wd false).2 =
      headCalls headBranch ++
      [Call.writeFile (tempBodyPath env.nowMs) body,
       Call.execCommand (powershellWrap (str "gh pr create " ++
         ((str "--title " ++ [squote] ++ escapePowerShellString title ++ [squote]) ++
          (' ' :: (bodyFileRepl (tempBodyPath env.nowMs) ++
            (str " --base " ++ (base ++ (str " --head " ++ head)))))))),
       Call.unlinkFile (tempBodyPath env.nowMs)] := by
  cases headBranch with
  | none =>
    have hrv : env.revparseRes = Except.ok head := hhead
    have henv : env = { env with revparseRes := Except.ok head } := by rw [← hrv]
    rw [henv]
    exact congrArg (Call.revparse :: ·)
      (createPullRequestWithHead_trace { env with revparseRes := Except.ok head }
        title body base head wd hb hbq ht htq hdol htb hbb hhb)
  | some h =>
    cases hE : h.isEmpty with
    | true =>
      have hnil : h = [] := by
        cases h with
        | nil => rfl
        | cons a t => exact absurd hE (by simp)
      subst hnil
      have hrv : env.revparseRes = Except.ok head := hhead
      have henv : env = { env with revparseRes := Except.ok head } := by rw [← hrv]
      rw [henv]
      exact congrArg (Call.revparse :: ·)
        (createPullRequestWithHead_trace { env with revparseRes := Except.ok head }
          title body base head wd hb hbq ht htq hdol htb hbb hhb)
    | false =>
      have hhead2 : if h.isEmpty then env.revparseRes = Except.ok head
          else h = head := hhead
      have hh2 : h = head := by
        rw [hE] at hhead2
        exact hhead2
      subst hh2
      obtain ⟨c0, t0, rfl⟩ : ∃ c0 t0, h = c0 :: t0 := by
        cases h with
        | nil => exact absurd hE (by simp)
        | cons c0 t0 => exact ⟨c0, t0, rfl⟩
      exact createPullRequestWithHead_trace env title body base (c0 :: t0) wd
        hb hbq ht htq hdol htb hbb hhb

theorem pr_body_via_temp_file_and_title_escaped_witness :
    (str "Adds things" ≠ [] ∧ dq ∉ str "Adds things" ∧
     str "My feature" ≠ [] ∧ dq ∉ str "My feature" ∧ '$' ∉ str "My feature" ∧
     ¬ str "--body" <:+: str "My feature" ∧
     ¬ str "--body" <:+: str "main" ∧
     ¬ str "--body" <:+: str "feat") ∧
    (createPullRequest env0 (str "My feature") (str "Adds things") (str "main")
        (some (str "feat")) none false).2 =
      [Call.writeFile (tempBodyPath env0.nowMs) (str "Adds things"),
       Call.execCommand (powershellWrap (str "gh pr create " ++
         ((str "--title " ++ [squote] ++ escapePowerShellString (str "My feature") ++
            [squote]) ++
          (' ' :: (bodyFileRepl (tempBodyPath env0.nowMs) ++
            (str " --base " ++ (str "main" ++ (str " --head " ++ str "feat")))))))),
       Call.unlinkFile (tempBodyPath env0.nowMs)] :=
  ⟨by decide,
   pr_body_via_temp_file_and_title_escaped env0 (str "My feature") (str "Adds things")
     (str "main") (some (str "feat")) (str "feat") none (by decide) (by decide)
     (by decide) (by decide) (by decide) (by decide) (by decide) (by decide) rfl⟩

end GitWorkflow
